import Mathlib

/-!
Verification of the natural-language specification of the `proxy-mediator`
repository (a DIDComm proxy mediator) against a shallow embedding of its
Python sources in Lean 4.

Embedding conventions:
* Python dicts parsed from JSON are modelled by the inductive type `Json`,
  whose objects are insertion-ordered association lists (Python 3.7+ dict
  semantics: updating an existing key keeps its position, a new key is
  appended).
* Python exceptions are modelled with `Except`: a handler either returns a
  value or raises a `PyErr` / protocol-specific error.
* Machine integers do not occur in the verified code paths; byte strings are
  `List Nat` with every element `< 256`.
* External library primitives used by the verified code (`json.loads`,
  base64, base58, multibase/multicodec) are given executable Lean
  implementations of their documented algorithms.
-/

set_option maxRecDepth 8000

namespace ProxyMediator

/-- JSON values as produced by Python `json.loads`: objects are
insertion-ordered association lists.  Numbers are restricted to integers,
which covers every value occurring in the verified protocols. -/
inductive Json where
  | null : Json
  | bool (b : Bool) : Json
  | num (n : Int) : Json
  | str (s : String) : Json
  | arr (items : List Json) : Json
  | obj (entries : List (String × Json)) : Json

namespace Json

/-- Python `key in dict` for an insertion-ordered object entry list. -/
def entriesHas (entries : List (String × Json)) (k : String) : Bool :=
  entries.any (fun e => e.fst == k)

/-- Python `dict[key]` lookup (first binding of the key). -/
def entriesGet (entries : List (String × Json)) (k : String) : Option Json :=
  match entries with
  | [] => none
  | e :: rest => if e.fst == k then some e.snd else entriesGet rest k

/-- Python `dict[key] = value`: replace the first binding of the key in
place, or append a new binding at the end. -/
def entriesSet (entries : List (String × Json)) (k : String) (v : Json) :
    List (String × Json) :=
  match entries with
  | [] => [(k, v)]
  | e :: rest =>
    if e.fst == k then (k, v) :: rest else e :: entriesSet rest k v

/-- Python `dict.pop(key)`: drop the first binding of the key. -/
def entriesPop (entries : List (String × Json)) (k : String) :
    List (String × Json) :=
  match entries with
  | [] => []
  | e :: rest => if e.fst == k then rest else e :: entriesPop rest k

/-- Membership test on a whole `Json` value (`key in value` on an object). -/
def hasKey : Json → String → Bool
  | .obj entries, k => entriesHas entries k
  | _, _ => false

/-- Object lookup on a whole `Json` value. -/
def get? : Json → String → Option Json
  | .obj entries, k => entriesGet entries k
  | _, _ => none

end Json

/-! ## Positional numerals

Executable base-`b` digit conversions used by the base58 codec (and, with
`b = 256`, by the byte/number conversions inside it).  Little-endian digit
lists; explicit fuel keeps everything structurally recursive and kernel
computable. -/

/-- Little-endian base-`b` digits of `n`, computed with explicit fuel.
`natToDigits b fuel n` is the digit list of `n` provided `n < b ^ fuel`. -/
def natToDigits (b : Nat) (fuel n : Nat) : List Nat :=
  match fuel with
  | 0 => []
  | fuel + 1 => if n = 0 then [] else n % b :: natToDigits b fuel (n / b)

/-- Value of a little-endian base-`b` digit list. -/
def digitsToNat (b : Nat) (l : List Nat) : Nat :=
  l.foldr (fun d acc => d + b * acc) 0

theorem digitsToNat_nil (b : Nat) : digitsToNat b [] = 0 := rfl

theorem digitsToNat_cons (b d : Nat) (l : List Nat) :
    digitsToNat b (d :: l) = d + b * digitsToNat b l := rfl

theorem div_base_lt_pow {b fuel n : Nat} (hb : 2 ≤ b)
    (hn : n < b ^ (fuel + 1)) : n / b < b ^ fuel := by
  rw [Nat.div_lt_iff_lt_mul (by omega : 0 < b)]
  calc n < b ^ (fuel + 1) := hn
    _ = b ^ fuel * b := by rw [pow_succ]

/-- Digits of a number below `b ^ fuel` evaluate back to the number. -/
theorem digitsToNat_natToDigits (b : Nat) (hb : 2 ≤ b) :
    ∀ fuel n, n < b ^ fuel → digitsToNat b (natToDigits b fuel n) = n := by
  intro fuel
  induction fuel with
  | zero =>
    intro n hn
    simp only [pow_zero, Nat.lt_one_iff] at hn
    simp [natToDigits, hn, digitsToNat]
  | succ fuel ih =>
    intro n hn
    by_cases h0 : n = 0
    · simp [natToDigits, h0, digitsToNat]
    · simp only [natToDigits, h0, if_false, digitsToNat_cons]
      rw [ih _ (div_base_lt_pow hb hn)]
      exact Nat.mod_add_div n b

/-- Every digit produced by `natToDigits` is below the base. -/
theorem natToDigits_lt (b : Nat) (hb : 2 ≤ b) :
    ∀ fuel n, ∀ d ∈ natToDigits b fuel n, d < b := by
  intro fuel
  induction fuel with
  | zero => intro n d hd; simp [natToDigits] at hd
  | succ fuel ih =>
    intro n d hd
    by_cases h0 : n = 0
    · simp [natToDigits, h0] at hd
    · simp only [natToDigits, h0, if_false, List.mem_cons] at hd
      rcases hd with h | h
      · subst h; exact Nat.mod_lt _ (by omega)
      · exact ih _ _ h

/-- `natToDigits` returns the empty list exactly on zero (given fuel). -/
theorem natToDigits_eq_nil_iff (b fuel n : Nat) (hfuel : 0 < fuel) :
    natToDigits b fuel n = [] ↔ n = 0 := by
  match fuel, hfuel with
  | fuel + 1, _ =>
    by_cases h0 : n = 0 <;> simp [natToDigits, h0]

/-- A digit list evaluating to zero consists of zero digits only. -/
theorem digitsToNat_eq_zero (b : Nat) (hb : 2 ≤ b) :
    ∀ l : List Nat, digitsToNat b l = 0 → ∀ x ∈ l, x = 0 := by
  intro l
  induction l with
  | nil => intro _ x hx; simp at hx
  | cons d rest ih =>
    intro hval x hx
    rw [digitsToNat_cons] at hval
    have hd0 : d = 0 := by omega
    have hrest : b * digitsToNat b rest = 0 := by omega
    have hrest0 : digitsToNat b rest = 0 := by
      rcases Nat.mul_eq_zero.mp hrest with h | h
      · omega
      · exact h
    rcases List.mem_cons.mp hx with h | h
    · omega
    · exact ih hrest0 x h

/-- The most significant digit produced by `natToDigits` is nonzero. -/
theorem natToDigits_getLast_ne_zero (b : Nat) (hb : 2 ≤ b) :
    ∀ fuel n, n < b ^ fuel →
      (natToDigits b fuel n).getLast? ≠ some 0 := by
  intro fuel
  induction fuel with
  | zero => intro n _ habs; simp [natToDigits] at habs
  | succ fuel ih =>
    intro n hn habs
    by_cases h0 : n = 0
    · simp [natToDigits, h0] at habs
    · have hshape : natToDigits b (fuel + 1) n
          = n % b :: natToDigits b fuel (n / b) := by
        simp [natToDigits, h0]
      rw [hshape] at habs
      by_cases hrest : natToDigits b fuel (n / b) = []
      · have hdiv0 : n / b = 0 := by
          rcases Nat.eq_zero_or_pos fuel with hf | hf
          · subst hf
            have : n < b := by simpa using hn
            exact Nat.div_eq_of_lt this
          · exact (natToDigits_eq_nil_iff b fuel (n / b) hf).mp hrest
        have hnb : n < b := by
          rcases Nat.lt_or_ge n b with h | h
          · exact h
          · exact absurd hdiv0 (by
              have : 1 ≤ n / b := (Nat.one_le_div_iff (by omega)).mpr h
              omega)
        have hmod : n % b = n := Nat.mod_eq_of_lt hnb
        rw [hrest] at habs
        simp [hmod] at habs
        exact h0 habs
      · obtain ⟨r, rs, hrr⟩ := List.exists_cons_of_ne_nil hrest
        rw [hrr, List.getLast?_cons_cons] at habs
        exact ih (n / b) (div_base_lt_pow hb hn) (by rw [hrr]; exact habs)

/-- Value bound: a base-`b` digit list with digits below `b` evaluates to a
number below `b ^ length`. -/
theorem digitsToNat_lt (b : Nat) (hb : 2 ≤ b) :
    ∀ l : List Nat, (∀ d ∈ l, d < b) → digitsToNat b l < b ^ l.length := by
  intro l
  induction l with
  | nil => intro _; simp [digitsToNat]
  | cons d rest ih =>
    intro hd
    have hdlt : d < b := hd d (by simp)
    have hrest : digitsToNat b rest < b ^ rest.length :=
      ih (fun x hx => hd x (by simp [hx]))
    simp only [digitsToNat_cons, List.length_cons, pow_succ]
    calc d + b * digitsToNat b rest
        < b + b * digitsToNat b rest := by omega
      _ = b * (digitsToNat b rest + 1) := by ring
      _ ≤ b * b ^ rest.length := by
          apply Nat.mul_le_mul_left
          omega
      _ = b ^ rest.length * b := by ring

/-- Skipping the head of a list with a nonempty tail keeps `getLast?`. -/
theorem getLast_opt_cons {α : Type} (a : α) (l : List α) (h : l ≠ []) :
    (a :: l).getLast? = l.getLast? := by
  match l, h with
  | x :: xs, _ => exact List.getLast?_cons_cons

/-- Digit extraction is a left inverse of evaluation on canonical digit
lists (digits below the base, no most-significant zero). -/
theorem natToDigits_digitsToNat (b : Nat) (hb : 2 ≤ b) :
    ∀ l : List Nat, (∀ d ∈ l, d < b) →
      l.getLast? ≠ some 0 →
      ∀ fuel, l.length ≤ fuel →
      natToDigits b fuel (digitsToNat b l) = l := by
  intro l
  induction l with
  | nil =>
    intro _ _ fuel _
    cases fuel <;> simp [natToDigits, digitsToNat]
  | cons d rest ih =>
    intro hd hlast fuel hlen
    match fuel, hlen with
    | fuel + 1, hlen =>
      have hdlt : d < b := hd d (by simp)
      have hne : digitsToNat b (d :: rest) ≠ 0 := by
        intro habs
        have hall : ∀ x ∈ d :: rest, x = 0 := digitsToNat_eq_zero b hb _ habs
        have hsome : (d :: rest).getLast? = some ((d :: rest).getLast (by simp)) :=
          List.getLast?_eq_getLast _ (by simp)
        apply hlast
        rw [hsome, hall _ (List.getLast_mem _)]
      have hmod : digitsToNat b (d :: rest) % b = d := by
        rw [digitsToNat_cons, Nat.add_mul_mod_self_left, Nat.mod_eq_of_lt hdlt]
      have hdiv : digitsToNat b (d :: rest) / b = digitsToNat b rest := by
        rw [digitsToNat_cons, Nat.add_mul_div_left _ _ (by omega : 0 < b),
          Nat.div_eq_of_lt hdlt, Nat.zero_add]
      have hshape : natToDigits b (fuel + 1) (digitsToNat b (d :: rest))
          = digitsToNat b (d :: rest) % b
            :: natToDigits b fuel (digitsToNat b (d :: rest) / b) := by
        simp [natToDigits, hne]
      rw [hshape, hmod, hdiv]
      congr 1
      apply ih (fun x hx => hd x (by simp [hx]))
        (by
          intro habs
          by_cases hrest : rest = []
          · rw [hrest] at habs; simp at habs
          · exact hlast (by rw [getLast_opt_cons d rest hrest]; exact habs))
      simpa using Nat.le_of_succ_le_succ hlen

/-! ## Base58 codec

Executable model of the `base58` library used through `aries_staticagent`
and `multiformats`: leading zero bytes map to leading `'1'` characters and
the remaining value is written in base 58 with the Bitcoin alphabet. -/

/-- The Bitcoin base58 alphabet. -/
def base58Alphabet : List Char :=
  "123456789ABCDEFGHJKLMNPQRSTUVWXYZabcdefghijkmnopqrstuvwxyz".data

/-- Character for a base58 digit. -/
def b58DigitChar (d : Nat) : Char := base58Alphabet.getD d '?'

/-- Digit for a base58 character (`none` for characters outside the
alphabet). -/
def b58CharDigit (c : Char) : Option Nat := base58Alphabet.indexOf? c

/-- Big-endian value of a byte string. -/
def bytesToNat (B : List Nat) : Nat := digitsToNat 256 B.reverse

/-- Base58-encode a byte string (model of `base58.b58encode` /
`multibase` base58btc payload encoding): one `'1'` per leading zero byte,
then the big-endian base58 digits of the value. -/
def b58encode (B : List Nat) : String :=
  ⟨List.replicate (B.takeWhile (fun x => x == 0)).length '1'
    ++ (natToDigits 58 (2 * B.length) (bytesToNat B)).reverse.map b58DigitChar⟩

/-- Base58-decode a string (model of `base58.b58decode`): one zero byte per
leading `'1'`, then the big-endian bytes of the base58 value; fails on
characters outside the alphabet. -/
def b58decode (s : String) : Option (List Nat) :=
  match (s.data.dropWhile (fun c => c == '1')).mapM b58CharDigit with
  | none => none
  | some ds =>
    some (List.replicate (s.data.takeWhile (fun c => c == '1')).length 0
      ++ (natToDigits 256 ds.length (digitsToNat 58 ds.reverse)).reverse)

theorem b58CharDigit_b58DigitChar : ∀ d < 58, b58CharDigit (b58DigitChar d) = some d := by
  decide

theorem b58DigitChar_ne_one : ∀ d < 58, d ≠ 0 → b58DigitChar d ≠ '1' := by
  decide

theorem b58DigitChar_ne_hash : ∀ d < 58, b58DigitChar d ≠ '#' := by
  decide

theorem digitsToNat_append (b : Nat) (l1 l2 : List Nat) :
    digitsToNat b (l1 ++ l2)
      = digitsToNat b l1 + b ^ l1.length * digitsToNat b l2 := by
  induction l1 with
  | nil => simp [digitsToNat]
  | cons d rest ih =>
    simp only [List.cons_append, digitsToNat_cons, ih, List.length_cons,
      pow_succ]
    ring

theorem digitsToNat_all_zero (b : Nat) (l : List Nat)
    (h : ∀ x ∈ l, x = 0) : digitsToNat b l = 0 := by
  induction l with
  | nil => rfl
  | cons d rest ih =>
    rw [digitsToNat_cons, h d (by simp), ih (fun x hx => h x (by simp [hx]))]
    ring

/-- Lower bound for the value of a digit list whose most significant digit
is nonzero. -/
theorem digitsToNat_ge (b : Nat) (hb : 2 ≤ b) :
    ∀ l : List Nat, l.getLast? ≠ some 0 → l ≠ [] →
      b ^ (l.length - 1) ≤ digitsToNat b l := by
  intro l
  induction l with
  | nil => intro _ h; exact absurd rfl h
  | cons d rest ih =>
    intro hlast _
    by_cases hrest : rest = []
    · subst hrest
      have hd : d ≠ 0 := by
        intro h0
        exact hlast (by simp [h0])
      simp only [List.length_singleton, Nat.sub_self, pow_zero]
      rw [digitsToNat_cons, digitsToNat_nil]
      omega
    · have hr := ih (by rwa [getLast_opt_cons d rest hrest] at hlast) hrest
      have hlen : rest.length - 1 + 1 = rest.length := by
        have : 0 < rest.length := List.length_pos.mpr hrest
        omega
      rw [digitsToNat_cons]
      calc b ^ ((d :: rest).length - 1) = b ^ rest.length := by simp
        _ = b ^ (rest.length - 1 + 1) := by rw [hlen]
        _ = b ^ (rest.length - 1) * b := pow_succ b _
        _ ≤ digitsToNat b rest * b := Nat.mul_le_mul_right b hr
        _ = b * digitsToNat b rest := Nat.mul_comm _ _
        _ ≤ d + b * digitsToNat b rest := Nat.le_add_left _ _

/-- `mapM` of a pointwise inverse over a mapped list recovers the list. -/
theorem mapM_map_inverse {α β : Type} (f : α → β) (g : β → Option α)
    (l : List α) (h : ∀ x ∈ l, g (f x) = some x) :
    (l.map f).mapM g = some l := by
  induction l with
  | nil => rfl
  | cons x rest ih =>
    have hx := h x (by simp)
    have hrest := ih (fun y hy => h y (by simp [hy]))
    simp only [List.map_cons, List.mapM_cons, hx, hrest, Option.pure_def,
      Option.bind_some]
    rfl

/-- `takeWhile`/`dropWhile` over a satisfying prefix followed by a
non-satisfying head. -/
theorem takeWhile_dropWhile_replicate {α : Type} (p : α → Bool) (a : α)
    (hp : p a = true) :
    ∀ (z : Nat) (l : List α), (∀ c ∈ l.head?, p c = false) →
      (List.replicate z a ++ l).takeWhile p = List.replicate z a
        ∧ (List.replicate z a ++ l).dropWhile p = l := by
  intro z
  induction z with
  | zero =>
    intro l hl
    rcases l with _ | ⟨c, cs⟩
    · simp [List.takeWhile, List.dropWhile]
    · have hc : p c = false := hl c (by simp)
      simp [List.takeWhile, List.dropWhile, hc]
  | succ z ih =>
    intro l hl
    obtain ⟨h1, h2⟩ := ih l hl
    constructor
    · rw [List.replicate_succ, List.cons_append,
        List.takeWhile_cons_of_pos hp, h1]
    · rw [List.replicate_succ, List.cons_append,
        List.dropWhile_cons_of_pos hp, h2]

/-- The head of `dropWhile p l` does not satisfy `p`. -/
theorem head_dropWhile_false {α : Type} (p : α → Bool) (l : List α) :
    ∀ c ∈ (l.dropWhile p).head?, p c = false := by
  induction l with
  | nil => intro c hc; simp [List.dropWhile] at hc
  | cons x rest ih =>
    intro c hc
    by_cases hx : p x
    · rw [List.dropWhile_cons_of_pos hx] at hc
      exact ih c hc
    · rw [List.dropWhile_cons_of_neg hx] at hc
      simp at hc
      subst hc
      simpa using hx

/-- Base58 round-trip: decoding an encoded byte string returns it
unchanged. -/
theorem b58decode_b58encode (B : List Nat) (hB : ∀ x ∈ B, x < 256) :
    b58decode (b58encode B) = some B := by
  classical
  have hsplit : B.takeWhile (fun x => x == 0) ++ B.dropWhile (fun x => x == 0)
      = B := List.takeWhile_append_dropWhile (fun x : Nat => x == 0) B
  have htake_zero : ∀ x ∈ B.takeWhile (fun x => x == 0), x = 0 := by
    intro x hx
    have := List.mem_takeWhile_imp hx
    simpa using this
  have htake_repl : B.takeWhile (fun x => x == 0)
      = List.replicate (B.takeWhile (fun x => x == 0)).length 0 :=
    List.eq_replicate_of_mem htake_zero
  have hval : bytesToNat B
      = digitsToNat 256 (B.dropWhile (fun x => x == 0)).reverse := by
    have hz : digitsToNat 256 (B.takeWhile (fun x => x == 0)).reverse = 0 :=
      digitsToNat_all_zero 256 _
        (fun x hx => htake_zero x (List.mem_reverse.mp hx))
    conv_lhs => rw [bytesToNat, ← hsplit]
    rw [List.reverse_append, digitsToNat_append, hz, Nat.mul_zero,
      Nat.add_zero]
  have hB1mem : ∀ x ∈ B.dropWhile (fun x => x == 0), x < 256 := fun x hx =>
    hB x ((List.dropWhile_sublist _).mem hx)
  have hB1head : ∀ c ∈ (B.dropWhile (fun x => x == 0)).head?,
      (c == 0) = false := head_dropWhile_false _ B
  have hnlt : bytesToNat B < 58 ^ (2 * B.length) := by
    have h1 : digitsToNat 256 (B.dropWhile (fun x => x == 0)).reverse
        < 256 ^ (B.dropWhile (fun x => x == 0)).length := by
      have := digitsToNat_lt 256 (by omega)
        (B.dropWhile (fun x => x == 0)).reverse
        (fun d hd => hB1mem d (List.mem_reverse.mp hd))
      simpa using this
    have h2 : (B.dropWhile (fun x => x == 0)).length ≤ B.length :=
      (List.dropWhile_sublist _).length_le
    calc bytesToNat B
        = digitsToNat 256 (B.dropWhile (fun x => x == 0)).reverse := hval
      _ < 256 ^ (B.dropWhile (fun x => x == 0)).length := h1
      _ ≤ 256 ^ B.length := Nat.pow_le_pow_right (by omega) h2
      _ ≤ (58 ^ 2) ^ B.length := Nat.pow_le_pow_left (by omega) _
      _ = 58 ^ (2 * B.length) := by rw [← pow_mul, Nat.mul_comm]
  by_cases hn0 : bytesToNat B = 0
  · -- all bytes are zero
    have hB1nil : B.dropWhile (fun x => x == 0) = [] := by
      by_contra hne
      obtain ⟨h, hs, hhd⟩ : ∃ h hs, B.dropWhile (fun x => x == 0) = h :: hs := by
        rcases hd : B.dropWhile (fun x => x == 0) with _ | ⟨h, hs⟩
        · exact absurd hd hne
        · exact ⟨h, hs, rfl⟩
      have hh0 : h ≠ 0 := by
        have := hB1head h (by rw [hhd]; rfl)
        simpa using this
      have hzval : digitsToNat 256 (B.dropWhile (fun x => x == 0)).reverse = 0 := by
        rw [← hval]; exact hn0
      have hall : ∀ x ∈ (B.dropWhile (fun x => x == 0)).reverse, x = 0 :=
        digitsToNat_eq_zero 256 (by omega) _ hzval
      exact hh0 (hall h (by rw [hhd]; simp))
    have hBrepl : B = List.replicate (B.takeWhile (fun x => x == 0)).length 0 := by
      conv_lhs => rw [← hsplit]
      rw [hB1nil, List.append_nil, ← htake_repl]
    have hdigits : natToDigits 58 (2 * B.length) (bytesToNat B) = [] := by
      rw [hn0]
      cases 2 * B.length <;> simp [natToDigits]
    have htdw := takeWhile_dropWhile_replicate (fun c => c == '1') '1'
      (by simp) (B.takeWhile (fun x => x == 0)).length ([] : List Char)
      (by intro c hc; simp at hc)
    simp only [List.append_nil] at htdw
    rw [b58encode, b58decode]
    simp only [hdigits, List.reverse_nil, List.map_nil, List.append_nil]
    rw [htdw.1, htdw.2]
    simp only [List.mapM_nil, List.length_replicate, List.length_nil]
    conv_lhs =>
      rw [show natToDigits 256 0 (digitsToNat 58 ([] : List Nat).reverse) = [] from rfl]
    rw [List.reverse_nil, List.append_nil]
    exact congrArg some hBrepl.symm
  · -- nonzero value: a nonempty base58 digit string follows the ones
    have hfpos : 0 < 2 * B.length := by
      rcases B with _ | _
      · simp [bytesToNat, digitsToNat] at hn0
      · simp
    have hdsne : natToDigits 58 (2 * B.length) (bytesToNat B) ≠ [] := by
      intro habs
      exact hn0 ((natToDigits_eq_nil_iff 58 _ _ hfpos).mp habs)
    have hdslt : ∀ d ∈ natToDigits 58 (2 * B.length) (bytesToNat B), d < 58 :=
      fun d hd => natToDigits_lt 58 (by omega) _ _ d hd
    have hdslast : (natToDigits 58 (2 * B.length) (bytesToNat B)).getLast?
        ≠ some 0 := natToDigits_getLast_ne_zero 58 (by omega) _ _ hnlt
    obtain ⟨dhi, dsBEtail, hBE⟩ : ∃ dhi rest,
        (natToDigits 58 (2 * B.length) (bytesToNat B)).reverse
          = dhi :: rest := by
      rcases hrev : (natToDigits 58 (2 * B.length) (bytesToNat B)).reverse
        with _ | ⟨x, xs⟩
      · exact absurd (by simpa using congrArg List.reverse hrev) hdsne
      · exact ⟨x, xs, rfl⟩
    have hdhi_last : (natToDigits 58 (2 * B.length) (bytesToNat B)).getLast?
        = some dhi := by
      rw [← List.head?_reverse, hBE]
      rfl
    have hdhi_ne : dhi ≠ 0 := fun h0 => hdslast (by rw [hdhi_last, h0])
    have hdhi_mem : dhi ∈ natToDigits 58 (2 * B.length) (bytesToNat B) :=
      List.mem_reverse.mp (by rw [hBE]; simp)
    have hdhi_lt : dhi < 58 := hdslt dhi hdhi_mem
    have hheadchar : ∀ c ∈
        ((natToDigits 58 (2 * B.length) (bytesToNat B)).reverse.map
          b58DigitChar).head?, (c == '1') = false := by
      rw [hBE]
      intro c hc
      simp only [List.map_cons, List.head?_cons, Option.mem_def,
        Option.some.injEq] at hc
      subst hc
      simpa using b58DigitChar_ne_one dhi hdhi_lt hdhi_ne
    have htdw := takeWhile_dropWhile_replicate (fun c => c == '1') '1'
      (by simp) (B.takeWhile (fun x => x == 0)).length
      ((natToDigits 58 (2 * B.length) (bytesToNat B)).reverse.map
        b58DigitChar) hheadchar
    rw [b58encode, b58decode]
    simp only
    rw [htdw.1, htdw.2]
    have hmapM : ((natToDigits 58 (2 * B.length) (bytesToNat B)).reverse.map
        b58DigitChar).mapM b58CharDigit
        = some (natToDigits 58 (2 * B.length) (bytesToNat B)).reverse :=
      mapM_map_inverse _ _ _ (fun d hd =>
        b58CharDigit_b58DigitChar d (hdslt d (List.mem_reverse.mp hd)))
    rw [hmapM]
    simp only [List.length_replicate, List.reverse_reverse,
      List.length_reverse]
    rw [digitsToNat_natToDigits 58 (by omega) _ _ hnlt]
    have hlast : (B.dropWhile (fun x => x == 0)).reverse.getLast?
        ≠ some 0 := by
      by_cases hB1nil : B.dropWhile (fun x => x == 0) = []
      · rw [hB1nil]; simp
      · obtain ⟨h, hs, hhd⟩ : ∃ h hs,
            B.dropWhile (fun x => x == 0) = h :: hs := by
          rcases hd : B.dropWhile (fun x => x == 0) with _ | ⟨h, hs⟩
          · exact absurd hd hB1nil
          · exact ⟨h, hs, rfl⟩
        have hh0 : h ≠ 0 := by
          have := hB1head h (by rw [hhd]; rfl)
          simpa using this
        rw [hhd, List.getLast?_reverse]
        simpa using hh0
    have hB1ne : B.dropWhile (fun x => x == 0) ≠ [] := by
      intro habs
      apply hn0
      rw [hval, habs]
      rfl
    have hlen : (B.dropWhile (fun x => x == 0)).reverse.length
        ≤ (natToDigits 58 (2 * B.length) (bytesToNat B)).length := by
      have hlow : 256 ^ ((B.dropWhile (fun x => x == 0)).length - 1)
          ≤ bytesToNat B := by
        rw [hval]
        have := digitsToNat_ge 256 (by omega)
          (B.dropWhile (fun x => x == 0)).reverse hlast
          (by simpa using hB1ne)
        simpa using this
      have hup : bytesToNat B
          < 58 ^ (natToDigits 58 (2 * B.length) (bytesToNat B)).length := by
        have := digitsToNat_lt 58 (by omega)
          (natToDigits 58 (2 * B.length) (bytesToNat B)) hdslt
        rwa [digitsToNat_natToDigits 58 (by omega) _ _ hnlt] at this
      have hchain : 58 ^ ((B.dropWhile (fun x => x == 0)).length - 1)
          < 58 ^ (natToDigits 58 (2 * B.length) (bytesToNat B)).length := by
        calc 58 ^ ((B.dropWhile (fun x => x == 0)).length - 1)
            ≤ 256 ^ ((B.dropWhile (fun x => x == 0)).length - 1) :=
              Nat.pow_le_pow_left (by omega) _
          _ ≤ bytesToNat B := hlow
          _ < _ := hup
      have := (Nat.pow_lt_pow_iff_right (by omega : 1 < 58)).mp hchain
      have hpos : 0 < (B.dropWhile (fun x => x == 0)).length :=
        List.length_pos.mpr hB1ne
      simp only [List.length_reverse]
      omega
    have hrecover : natToDigits 256
        (natToDigits 58 (2 * B.length) (bytesToNat B)).length (bytesToNat B)
        = (B.dropWhile (fun x => x == 0)).reverse := by
      have hx := natToDigits_digitsToNat 256 (by omega)
        (B.dropWhile (fun x => x == 0)).reverse
        (fun d hd => hB1mem d (List.mem_reverse.mp hd)) hlast
        (natToDigits 58 (2 * B.length) (bytesToNat B)).length hlen
      rw [← hval] at hx
      exact hx
    rw [hrecover]
    simp only [List.reverse_reverse]
    rw [← htake_repl]
    exact congrArg some hsplit

/-! ## did:key codec

Embedding of `verkey_to_didkey` / `didkey_to_verkey` from
`proxy_mediator/protocols/oob_didexchange.py`, over executable models of
the `multiformats` multibase (base58btc) and multicodec (unsigned varint
prefix) primitives. -/

/-- Unsigned LEB128 varint encoding (model of `multiformats.multicodec`
prefix encoding), with fuel. -/
def varintEncode (fuel n : Nat) : List Nat :=
  match fuel with
  | 0 => []
  | fuel + 1 =>
    if n < 128 then [n] else (n % 128 + 128) :: varintEncode fuel (n / 128)

/-- Unsigned LEB128 varint decoding, returning the value and remaining
bytes. -/
def varintDecode (fuel : Nat) (l : List Nat) : Option (Nat × List Nat) :=
  match fuel, l with
  | 0, _ => none
  | _ + 1, [] => none
  | fuel + 1, b :: rest =>
    if b < 128 then some (b, rest)
    else
      match varintDecode fuel rest with
      | some (v, rest2) => some (b - 128 + 128 * v, rest2)
      | none => none

/-- Multicodec code of `ed25519-pub`. -/
def ed25519PubCode : Nat := 237

/-- Multicodec name table, restricted to the codec used by the program. -/
def codecName (code : Nat) : Option String :=
  if code = 237 then some "ed25519-pub" else none

/-- `multicodec.wrap`: prepend the varint codec prefix. -/
def multicodecWrap (code : Nat) (data : List Nat) : List Nat :=
  varintEncode 10 code ++ data

/-- Error raised by `didkey_to_verkey` and friends: `ProtocolError` from
the repository or a `ValueError`/`KeyError` escaping the multiformats
library. -/
inductive KeyErr where
  | protocolError (msg : String)
  | libraryError
deriving DecidableEq, Repr

/-- Embedding of `verkey_to_didkey` (oob_didexchange.py line 37): wrap the
key with the `ed25519-pub` multicodec prefix, multibase-encode with
base58btc (a `'z'` prefix) and prepend `did:key:`. -/
def verkey_to_didkey (vk : List Nat) : String :=
  "did:key:" ++ ("z" ++ b58encode (multicodecWrap ed25519PubCode vk))

/-- `multibase.decode` restricted to the base58btc prefix used by the
program; any other prefix is a library error. -/
def multibaseDecode (cs : List Char) : Option (List Nat) :=
  match cs with
  | 'z' :: rest => b58decode ⟨rest⟩
  | _ => none

/-- Embedding of `didkey_to_verkey` (oob_didexchange.py line 44): strip
`did:key:` (8 characters) and any `#` fragment, multibase-decode,
multicodec-unwrap and insist on `ed25519-pub`. -/
def didkey_to_verkey (didkey : String) : Except KeyErr (List Nat) :=
  match multibaseDecode ((didkey.data.drop 8).takeWhile (fun c => c != '#')) with
  | none => .error .libraryError
  | some bytes =>
    match varintDecode 9 bytes with
    | none => .error .libraryError
    | some (code, unwrapped) =>
      match codecName code with
      | none => .error .libraryError
      | some name =>
        if name = "ed25519-pub" then .ok unwrapped
        else .error (.protocolError ("Unsupported did:key: " ++ name))

/-- Embedding of `verkey_b58_to_didkey` (oob_didexchange.py line 32):
base58-decode the key then apply `verkey_to_didkey`; a malformed base58
key raises in `crypto.b58_to_bytes`. -/
def verkey_b58_to_didkey (verkey : String) : Except KeyErr String :=
  match b58decode verkey with
  | none => .error .libraryError
  | some bytes => .ok (verkey_to_didkey bytes)

theorem takeWhile_all {α : Type} (p : α → Bool) (l : List α)
    (h : ∀ x ∈ l, p x = true) : l.takeWhile p = l := by
  induction l with
  | nil => rfl
  | cons x rest ih =>
    rw [List.takeWhile_cons_of_pos (h x (by simp)),
      ih (fun y hy => h y (by simp [hy]))]

/-- Every character of a base58 encoding is outside `#` (needed because
`didkey_to_verkey` splits on `#`). -/
theorem b58encode_no_hash (B : List Nat) :
    ∀ c ∈ (b58encode B).data, (c != '#') = true := by
  intro c hc
  rw [b58encode] at hc
  simp only [List.mem_append] at hc
  rcases hc with hc | hc
  · have := List.eq_of_mem_replicate hc
    subst this
    decide
  · simp only [List.mem_map] at hc
    obtain ⟨d, hd, hdc⟩ := hc
    have hdlt : d < 58 := natToDigits_lt 58 (by omega) _ _ d
      (List.mem_reverse.mp hd)
    have := b58DigitChar_ne_hash d hdlt
    subst hdc
    simpa using this

/-- C7: for every 32-byte Ed25519 public key `vk`, converting it to a
did:key string and back yields the original key:
`didkey_to_verkey (verkey_to_didkey vk) = vk` (as `Except.ok`). -/
theorem c7_didkey_roundtrip (vk : List Nat) (hbytes : ∀ x ∈ vk, x < 256)
    (hlen : vk.length = 32) :
    didkey_to_verkey (verkey_to_didkey vk) = .ok vk := by
  have hW : multicodecWrap ed25519PubCode vk = 237 :: 1 :: vk := rfl
  have hWb : ∀ x ∈ 237 :: 1 :: vk, x < 256 := by
    intro x hx
    simp only [List.mem_cons] at hx
    rcases hx with h | h | h
    · omega
    · omega
    · exact hbytes x h
  have hdata : (verkey_to_didkey vk).data.drop 8
      = 'z' :: (b58encode (237 :: 1 :: vk)).data := by
    rw [verkey_to_didkey, hW, String.data_append, String.data_append]
    have h8 : ("did:key:".data).length = 8 := rfl
    rw [← h8, List.drop_left]
    rfl
  have hmk : ((verkey_to_didkey vk).data.drop 8).takeWhile (fun c => c != '#')
      = 'z' :: (b58encode (237 :: 1 :: vk)).data := by
    rw [hdata, List.takeWhile_cons_of_pos (by decide),
      takeWhile_all _ _ (b58encode_no_hash _)]
  rw [didkey_to_verkey, hmk]
  have hdecode : multibaseDecode ('z' :: (b58encode (237 :: 1 :: vk)).data)
      = some (237 :: 1 :: vk) := by
    rw [multibaseDecode]
    have heta : (⟨(b58encode (237 :: 1 :: vk)).data⟩ : String)
        = b58encode (237 :: 1 :: vk) := rfl
    rw [heta]
    exact b58decode_b58encode _ hWb
  rw [hdecode]
  have hvarint : varintDecode 9 (237 :: 1 :: vk) = some (237, vk) := by
    simp [varintDecode]
  simp [hvarint, codecName]

/-- Closed witness for C7 at a concrete 32-byte key. -/
theorem c7_didkey_roundtrip_witness :
    (∀ x ∈ List.range 32, x < 256) ∧ (List.range 32).length = 32
      ∧ didkey_to_verkey (verkey_to_didkey (List.range 32))
          = .ok (List.range 32) :=
  ⟨by decide, by decide,
    c7_didkey_roundtrip (List.range 32) (by decide) (by decide)⟩

/-! ## Connection state machine

Embedding of `ConnectionMachine` from `proxy_mediator/connection.py`
(lines 84-104).  The Python class defines events as class attributes of a
`statemachine.StateMachine`; firing an event that is not a class attribute
raises `AttributeError`, and firing a defined event from a state with no
matching transition raises the library's transition error (the spec's
`IllegalTransition`). -/

/-- The eight states of `ConnectionMachine` (attribute ids; the display
names `invited`, `requested`, `responded` belong to `invite_received`,
`request_received`, `response_received`). -/
inductive ConnState where
  | null
  | invite_sent
  | invite_received
  | request_sent
  | request_received
  | response_sent
  | response_received
  | complete
deriving DecidableEq, Repr

/-- Event names fired on `ConnectionMachine` anywhere in the repository:
the ten events defined on the class, plus `sendComplete` and
`receiveComplete`, which `OobDidExchange.response` and
`OobDidExchange.complete` invoke. -/
inductive ConnEvent where
  | sendInvite
  | receiveRequest
  | sendResponse
  | receiveInvite
  | sendRequest
  | receiveResponse
  | sendPing
  | receivePing
  | sendPingResponse
  | receivePingResponse
  | sendComplete
  | receiveComplete
deriving DecidableEq, Repr

/-- The transition lists attached to each event attribute of
`ConnectionMachine` (connection.py lines 94-104); `none` means the event
is not an attribute of the class at all. -/
def machineTransitions : ConnEvent → Option (List (ConnState × ConnState))
  | .sendInvite => some [(.null, .invite_sent)]
  | .receiveRequest => some [(.invite_sent, .request_received)]
  | .sendResponse => some [(.request_received, .response_sent)]
  | .receiveInvite => some [(.null, .invite_received)]
  | .sendRequest => some [(.invite_received, .request_sent)]
  | .receiveResponse => some [(.request_sent, .response_received)]
  | .sendPing => some [(.response_received, .complete), (.complete, .complete)]
  | .receivePing => some [(.response_sent, .complete), (.complete, .complete)]
  | .sendPingResponse => some [(.complete, .complete)]
  | .receivePingResponse => some [(.complete, .complete)]
  | .sendComplete => none
  | .receiveComplete => none

/-- Result of firing an event on the machine: a successful transition, the
library's illegal-transition error, or a Python `AttributeError` because
the event is not defined on the class. -/
inductive FireResult where
  | ok (s : ConnState)
  | illegalTransition
  | attributeError
deriving DecidableEq, Repr

/-- Fire an event of `ConnectionMachine` from a state. -/
def ConnectionMachine.fire (s : ConnState) (e : ConnEvent) : FireResult :=
  match machineTransitions e with
  | none => .attributeError
  | some ts =>
    match ts.find? (fun t => decide (t.fst = s)) with
    | some t => .ok t.snd
    | none => .illegalTransition

/-- C3: the claim states that `send_complete` moves `responded` to
`complete` and `receive_complete` moves `response_sent` to `complete`, so
that the OOB complete-message handlers succeed.  In the code
`ConnectionMachine` defines neither event, so the calls
`ConnectionMachine(conn).send_complete()` (oob_didexchange.py line 351)
and `ConnectionMachine(conn).receive_complete()` (line 359) raise
`AttributeError` instead of transitioning; the ping events do take those
transitions.  This theorem evaluates the machine at the failing inputs. -/
theorem c3_connection_machine_complete_events :
    ConnectionMachine.fire .response_received .sendComplete = .attributeError
    ∧ ConnectionMachine.fire .response_sent .receiveComplete = .attributeError
    ∧ ConnectionMachine.fire .response_received .sendPing = .ok .complete
    ∧ ConnectionMachine.fire .response_sent .receivePing = .ok .complete
    ∧ FireResult.attributeError ≠ FireResult.ok .complete
    ∧ FireResult.attributeError ≠ FireResult.illegalTransition := by
  decide

/-! ## Routing (forward handler)

Embedding of `Routing.forward` from `proxy_mediator/protocols/routing.py`
(lines 63-89).  Connections are compared with Python object identity
(`conn != agent.mediator_connection`), modelled by a numeric id. -/

namespace Routing

/-- The part of a connection's target the forward handler reads. -/
structure RTarget where
  endpoint : Option String
deriving DecidableEq, Repr

/-- A connection as seen by the forward handler: Python object identity
plus its target. -/
structure RConn where
  cid : Nat
  target : Option RTarget
deriving DecidableEq, Repr

/-- A parsed `Forward` message (`to` and `msg` body fields). -/
structure Forward where
  «to» : String
  msg : Json

/-- Errors raised by the forward handler; `assertionError` models the two
`assert` statements on the agent connection's target and endpoint. -/
inductive ForwardErr where
  | agentConnectionNotEstablished
  | mediatorConnectionNotEstablished
  | forwardFromUnauthorizedConnection
  | assertionError
deriving DecidableEq, Repr

/-- The observable effect of a successful forward: `Connection._send` of
the serialized `msg` value to the endpoint, with no packing and no outer
envelope (the payload is the `msg` JSON value itself). -/
structure SendPlain where
  payload : Json
  endpoint : String

/-- Embedding of `Routing.forward`: guard order and delivery exactly as in
the source. -/
def forward (agentConn mediatorConn : Option RConn) (conn : RConn)
    (fwd : Forward) : Except ForwardErr SendPlain :=
  match agentConn with
  | none => .error .agentConnectionNotEstablished
  | some a =>
    match mediatorConn with
    | none => .error .mediatorConnectionNotEstablished
    | some m =>
      if conn.cid ≠ m.cid then .error .forwardFromUnauthorizedConnection
      else
        match a.target with
        | none => .error .assertionError
        | some t =>
          match t.endpoint with
          | none => .error .assertionError
          | some e =>
            if e = "" then .error .assertionError else .ok ⟨fwd.msg, e⟩

end Routing

/-- C1: the forward handler checks, in order: agent connection unset,
mediator connection unset, originating connection not the mediator
connection, raising the corresponding error on the first failure;
otherwise it sends the inner `msg` field unchanged (unpacked, unwrapped)
to the agent connection's target endpoint.  The delivery clause assumes
the established agent connection has a target with a nonempty endpoint
(the spec's invariant for completed connections; `agent_connection` is
only assigned after completion), which the handler's `assert` statements
restate. -/
theorem c1_forward_order (agentConn mediatorConn : Option Routing.RConn)
    (conn : Routing.RConn) (fwd : Routing.Forward) :
    (agentConn = none →
      Routing.forward agentConn mediatorConn conn fwd
        = .error .agentConnectionNotEstablished)
    ∧ (∀ a, agentConn = some a → mediatorConn = none →
      Routing.forward agentConn mediatorConn conn fwd
        = .error .mediatorConnectionNotEstablished)
    ∧ (∀ a m, agentConn = some a → mediatorConn = some m →
      conn.cid ≠ m.cid →
      Routing.forward agentConn mediatorConn conn fwd
        = .error .forwardFromUnauthorizedConnection)
    ∧ (∀ a m t e, agentConn = some a → mediatorConn = some m →
      conn.cid = m.cid → a.target = some t → t.endpoint = some e → e ≠ "" →
      Routing.forward agentConn mediatorConn conn fwd
        = .ok ⟨fwd.msg, e⟩) := by
  refine ⟨?_, ?_, ?_, ?_⟩
  · intro h
    subst h
    rfl
  · intro a ha hm
    subst ha
    subst hm
    rfl
  · intro a m ha hm hne
    subst ha
    subst hm
    simp [Routing.forward, hne]
  · intro a m t e ha hm hcid ht he hne
    subst ha
    subst hm
    simp [Routing.forward, hcid, ht, he, hne]

/-- Closed witness for C1 exercising all four branches at concrete
inputs. -/
theorem c1_forward_order_witness :
    Routing.forward none none ⟨5, none⟩ ⟨"K", .str "c"⟩
        = .error .agentConnectionNotEstablished
    ∧ Routing.forward (some ⟨0, some ⟨some "http://agent:3000"⟩⟩) none
        ⟨5, none⟩ ⟨"K", .str "c"⟩
        = .error .mediatorConnectionNotEstablished
    ∧ Routing.forward (some ⟨0, some ⟨some "http://agent:3000"⟩⟩)
        (some ⟨1, none⟩) ⟨5, none⟩ ⟨"K", .str "c"⟩
        = .error .forwardFromUnauthorizedConnection
    ∧ Routing.forward (some ⟨0, some ⟨some "http://agent:3000"⟩⟩)
        (some ⟨1, none⟩) ⟨1, none⟩ ⟨"K", .str "c"⟩
        = .ok ⟨.str "c", "http://agent:3000"⟩ :=
  ⟨(c1_forward_order none none ⟨5, none⟩ ⟨"K", .str "c"⟩).1 rfl,
    (c1_forward_order _ none ⟨5, none⟩ ⟨"K", .str "c"⟩).2.1 _ rfl rfl,
    (c1_forward_order _ _ ⟨5, none⟩ ⟨"K", .str "c"⟩).2.2.1 _ _ rfl rfl
      (by decide),
    (c1_forward_order _ _ ⟨1, none⟩ ⟨"K", .str "c"⟩).2.2.2 _ _ _ _ rfl rfl
      rfl rfl rfl (by decide)⟩

/-! ## Coordinate mediation (downstream mediate-request handler)

Embedding of `CoordinateMediation.mediate_request` from
`proxy_mediator/protocols/coordinate_mediation.py` (lines 126-159). -/

namespace CoordinateMediation

/-- The pending upstream mediation request (`MediationRequest`); only its
completion event matters to the handler. -/
structure MediationRequest where
  complete : Bool
deriving DecidableEq, Repr

/-- The mediator connection as read by the handler (its raw verkey). -/
structure MConn where
  cid : Nat
  verkey : List Nat
deriving DecidableEq, Repr

/-- The module state consulted by `mediate_request`. -/
structure CMState where
  external_mediator_endpoint : Option String
  external_mediator_routing_keys : Option (List String)
  external_pending_request : Option MediationRequest
deriving DecidableEq, Repr

/-- The mediate-grant reply body. -/
structure Grant where
  endpoint : Option String
  routing_keys : List String
deriving DecidableEq, Repr

/-- Errors of the handler: the protocol error it raises, the two `assert`
statements, and a `ValueError` escaping `crypto.b58_to_bytes` on a
malformed stored routing key. -/
inductive MedErr where
  | externalMediationNotEstablished
  | assertionError
  | b58DecodeError
deriving DecidableEq, Repr

/-- Python `str.startswith`, executable on the character list. -/
def pyStartsWith (s pre : String) : Bool :=
  s.data.take pre.data.length == pre.data

/-- Normalization of one stored routing key for the grant (the list
comprehension in coordinate_mediation.py lines 151-156): keys already in
`did:key:` form pass through, others are converted with
`verkey_b58_to_didkey`. -/
def normalizeKey (key : String) : Except MedErr String :=
  if pyStartsWith key "did:key:" then .ok key
  else
    match verkey_b58_to_didkey key with
    | .ok d => .ok d
    | .error _ => .error .b58DecodeError

/-- Normalize the stored routing keys in order, propagating the first
failure (the comprehension evaluates left to right). -/
def normalizeKeys : List String → Except MedErr (List String)
  | [] => .ok []
  | k :: ks => do
    let d ← normalizeKey k
    let ds ← normalizeKeys ks
    pure (d :: ds)

/-- Embedding of `mediate_request`: raise
`ExternalMediationNotEstablished` unless a pending upstream request exists
and is complete; `assert` truthiness of the stored routing keys (an empty
list fails) and of the mediator connection; reply with a grant whose
endpoint is the stored upstream endpoint and whose routing keys are the
did:key of the upstream connection verkey followed by the normalized
stored keys. -/
def mediate_request (st : CMState) (mediatorConn : Option MConn) :
    Except MedErr Grant :=
  match st.external_pending_request with
  | none => .error .externalMediationNotEstablished
  | some req =>
    if ¬req.complete then .error .externalMediationNotEstablished
    else
      match st.external_mediator_routing_keys with
      | none => .error .assertionError
      | some [] => .error .assertionError
      | some (k :: ks) =>
        match mediatorConn with
        | none => .error .assertionError
        | some mc =>
          match normalizeKeys (k :: ks) with
          | .error e => .error e
          | .ok normd =>
            .ok ⟨st.external_mediator_endpoint,
              verkey_to_didkey mc.verkey :: normd⟩

end CoordinateMediation

/-- C2 counterexample: the claim promises a grant whenever the pending
upstream request is complete, but with a stored upstream routing-key list
that is empty (a legal upstream grant body) the handler's
`assert self.external_mediator_routing_keys` fails — Python truthiness of
`[]` — raising `AssertionError` instead of replying. -/
theorem c2_mediate_grant_counterexample :
    CoordinateMediation.mediate_request
        ⟨some "http://mediator:4013", some [], some ⟨true⟩⟩
        (some ⟨0, List.range 32⟩)
      = .error .assertionError
    ∧ (Except.error CoordinateMediation.MedErr.assertionError
        ≠ (Except.error CoordinateMediation.MedErr.externalMediationNotEstablished
          : Except CoordinateMediation.MedErr CoordinateMediation.Grant)) := by
  refine ⟨rfl, fun h => ?_⟩
  exact CoordinateMediation.MedErr.noConfusion (Except.error.inj h)

/-- C2 (amended): on a downstream mediate-request, if no upstream request
exists or it is incomplete the handler raises
`ExternalMediationNotEstablished`; otherwise — provided the stored
upstream routing-key list is non-empty and the mediator connection is set
(both asserted by the handler) and every stored key normalizes — it
replies with a mediate-grant whose endpoint is the stored upstream
endpoint and whose routing keys are the did:key form of the proxy's
upstream connection verkey followed by the stored keys normalized in
order, keys already in `did:key:` form passing through unchanged. -/
theorem c2_mediate_grant (st : CoordinateMediation.CMState)
    (mediatorConn : Option CoordinateMediation.MConn) :
    (st.external_pending_request = none →
      CoordinateMediation.mediate_request st mediatorConn
        = .error .externalMediationNotEstablished)
    ∧ (∀ r, st.external_pending_request = some r → r.complete = false →
      CoordinateMediation.mediate_request st mediatorConn
        = .error .externalMediationNotEstablished)
    ∧ (∀ r k ks mc normd, st.external_pending_request = some r →
      r.complete = true →
      st.external_mediator_routing_keys = some (k :: ks) →
      mediatorConn = some mc →
      CoordinateMediation.normalizeKeys (k :: ks) = .ok normd →
      CoordinateMediation.mediate_request st mediatorConn
        = .ok ⟨st.external_mediator_endpoint,
            verkey_to_didkey mc.verkey :: normd⟩)
    ∧ (∀ key, CoordinateMediation.pyStartsWith key "did:key:" = true →
      CoordinateMediation.normalizeKey key = .ok key) := by
  refine ⟨?_, ?_, ?_, ?_⟩
  · intro h
    simp [CoordinateMediation.mediate_request, h]
  · intro r hr hc
    simp [CoordinateMediation.mediate_request, hr, hc]
  · intro r k ks mc normd hr hc hkeys hmc hnorm
    simp [CoordinateMediation.mediate_request, hr, hc, hkeys, hmc, hnorm]
  · intro key hkey
    simp [CoordinateMediation.normalizeKey, hkey]

/-- Closed witness for C2's amended theorem at concrete state: one
pass-through `did:key:` routing key and a complete pending request. -/
theorem c2_mediate_grant_witness :
    CoordinateMediation.mediate_request
        ⟨some "http://mediator:4013", some ["did:key:zExample"], some ⟨true⟩⟩
        (some ⟨0, List.range 32⟩)
      = .ok ⟨some "http://mediator:4013",
          verkey_to_didkey (List.range 32) :: ["did:key:zExample"]⟩
    ∧ CoordinateMediation.mediate_request
        ⟨none, none, none⟩ none = .error .externalMediationNotEstablished
    ∧ CoordinateMediation.mediate_request
        ⟨none, none, some ⟨false⟩⟩ none
        = .error .externalMediationNotEstablished :=
  ⟨(c2_mediate_grant _ _).2.2.1 ⟨true⟩ "did:key:zExample" [] ⟨0, List.range 32⟩
      ["did:key:zExample"] rfl rfl rfl rfl rfl,
    (c2_mediate_grant _ _).1 rfl,
    (c2_mediate_grant _ _).2.1 ⟨false⟩ rfl rfl⟩

/-! ## JSON parsing and base64 (envelope codec externals)

Executable model of `json.loads` (restricted to the JSON subset used by
DIDComm envelopes: no floats, no `\u` escapes) and of
`crypto.b64_to_bytes` with its `pad` helper. -/

/-- JSON whitespace skipping. -/
def skipWs (cs : List Char) : List Char :=
  cs.dropWhile (fun c => c == ' ' || c == '\t' || c == '\n' || c == '\r')

/-- Parse the remainder of a JSON string literal after the opening quote;
supports the escapes used in practice (no `\u`). -/
def parseStringRest : List Char → Option (String × List Char)
  | [] => none
  | '"' :: rest => some ("", rest)
  | '\\' :: e :: rest =>
    match parseStringRest rest with
    | none => none
    | some (s, r) =>
      match e with
      | '"' => some ("\"" ++ s, r)
      | '\\' => some ("\\" ++ s, r)
      | '/' => some ("/" ++ s, r)
      | 'n' => some ("\n" ++ s, r)
      | 't' => some ("\t" ++ s, r)
      | 'r' => some ("\r" ++ s, r)
      | _ => none
  | c :: rest =>
    match parseStringRest rest with
    | none => none
    | some (s, r) => some (⟨c :: s.data⟩, r)

/-- Parse a run of decimal digits. -/
def parseDigits : List Char → Option (Nat × List Char)
  | c :: rest =>
    if c.isDigit then
      match parseDigits rest with
      | some (n, r) =>
        some (((c.toNat - 48) * 10 ^ ((rest.length - r.length)) + n), r)
      | none => some (c.toNat - 48, rest)
    else none
  | [] => none

/-- Requests of the JSON parser: a value, the items of an array after the
opening bracket, or the entries of an object after the opening brace. -/
inductive PReq where
  | val (cs : List Char)
  | arrItems (cs : List Char) (first : Bool)
  | objItems (cs : List Char) (first : Bool)

/-- Results of the JSON parser. -/
inductive PRes where
  | val (j : Json) (rest : List Char)
  | items (js : List Json) (rest : List Char)
  | entries (es : List (String × Json)) (rest : List Char)

/-- One fuel-indexed step of the recursive-descent JSON parser. -/
def parseStep : Nat → PReq → Option PRes
  | 0, _ => none
  | fuel + 1, .val cs =>
    match skipWs cs with
    | 'n' :: 'u' :: 'l' :: 'l' :: rest => some (.val .null rest)
    | 't' :: 'r' :: 'u' :: 'e' :: rest => some (.val (.bool true) rest)
    | 'f' :: 'a' :: 'l' :: 's' :: 'e' :: rest => some (.val (.bool false) rest)
    | '"' :: rest =>
      match parseStringRest rest with
      | some (s, r) => some (.val (.str s) r)
      | none => none
    | '[' :: rest =>
      match parseStep fuel (.arrItems rest true) with
      | some (.items js r) => some (.val (.arr js) r)
      | _ => none
    | '{' :: rest =>
      match parseStep fuel (.objItems rest true) with
      | some (.entries es r) => some (.val (.obj es) r)
      | _ => none
    | '-' :: rest =>
      match parseDigits rest with
      | some (n, r) => some (.val (.num (-(n : Int))) r)
      | none => none
    | c :: rest =>
      if c.isDigit then
        match parseDigits (c :: rest) with
        | some (n, r) => some (.val (.num (n : Int)) r)
        | none => none
      else none
    | [] => none
  | fuel + 1, .arrItems cs first =>
    match skipWs cs with
    | ']' :: rest => if first then some (.items [] rest) else none
    | _ =>
      match parseStep fuel (.val cs) with
      | some (.val j r) =>
        match skipWs r with
        | ',' :: r2 =>
          match parseStep fuel (.arrItems r2 false) with
          | some (.items js r3) => some (.items (j :: js) r3)
          | _ => none
        | ']' :: r2 => some (.items [j] r2)
        | _ => none
      | _ => none
  | fuel + 1, .objItems cs first =>
    match skipWs cs with
    | '}' :: rest => if first then some (.entries [] rest) else none
    | '"' :: rest =>
      match parseStringRest rest with
      | some (k, r) =>
        match skipWs r with
        | ':' :: r2 =>
          match parseStep fuel (.val r2) with
          | some (.val v r3) =>
            match skipWs r3 with
            | ',' :: r4 =>
              match parseStep fuel (.objItems r4 false) with
              | some (.entries es r5) => some (.entries ((k, v) :: es) r5)
              | _ => none
            | '}' :: r4 => some (.entries [(k, v)] r4)
            | _ => none
          | _ => none
        | _ => none
      | none => none
    | _ => none

/-- Model of `json.loads` on a string: parse one value and require only
whitespace afterwards. -/
def json_loads (s : String) : Option Json :=
  match parseStep (2 * s.data.length + 2) (.val s.data) with
  | some (.val j rest) => if skipWs rest = [] then some j else none
  | _ => none

/-- `pad` from encode.py / aries_staticagent.crypto: restore base64
padding unless that would take more than two `=`. -/
def pad (val : String) : String :=
  let padlen := 4 - val.data.length % 4
  if padlen > 2 then val else val ++ ⟨List.replicate padlen '='⟩

/-- Value of one base64 character (urlsafe or standard alphabet). -/
def b64CharVal (urlsafe : Bool) (c : Char) : Option Nat :=
  if 'A' ≤ c ∧ c ≤ 'Z' then some (c.toNat - 65)
  else if 'a' ≤ c ∧ c ≤ 'z' then some (c.toNat - 97 + 26)
  else if '0' ≤ c ∧ c ≤ '9' then some (c.toNat - 48 + 52)
  else if urlsafe then
    if c = '-' then some 62 else if c = '_' then some 63 else none
  else
    if c = '+' then some 62 else if c = '/' then some 63 else none

/-- Decode base64 in groups of four characters; `=` padding only at the
end. -/
def b64DecodeLoop (urlsafe : Bool) : List Char → Option (List Nat)
  | [] => some []
  | c1 :: c2 :: c3 :: c4 :: rest =>
    match b64CharVal urlsafe c1, b64CharVal urlsafe c2 with
    | some v1, some v2 =>
      if c3 = '=' ∧ c4 = '=' then
        if rest = [] then some [v1 * 4 + v2 / 16] else none
      else if c4 = '=' then
        match b64CharVal urlsafe c3 with
        | some v3 =>
          if rest = [] then
            some [v1 * 4 + v2 / 16, (v2 % 16) * 16 + v3 / 4]
          else none
        | none => none
      else
        match b64CharVal urlsafe c3, b64CharVal urlsafe c4 with
        | some v3, some v4 =>
          match b64DecodeLoop urlsafe rest with
          | some bs =>
            some ((v1 * 4 + v2 / 16) :: ((v2 % 16) * 16 + v3 / 4)
              :: ((v3 % 4) * 64 + v4) :: bs)
          | none => none
        | _, _ => none
    | _, _ => none
  | _ => none

/-- Model of `crypto.b64_to_bytes` (with `pad`); `none` is the
`binascii.Error` raised on malformed input. -/
def b64_to_bytes (val : String) (urlsafe : Bool) : Option (List Nat) :=
  b64DecodeLoop urlsafe (pad val).data

/-- Python `bytes.decode("ascii")`; fails on bytes above 127. -/
def asciiDecode (bs : List Nat) : Option String :=
  if bs.all (fun b => b < 128) then some ⟨bs.map Char.ofNat⟩ else none

/-! ## Envelope codec: `Agent._recipients_from_packed_message`

Embedding of agent.py lines 111-128. -/

theorem except_bind_error {e1 a b : Type} (e : e1) (f : a → Except e1 b) :
    (Except.error e >>= f) = Except.error e := rfl

theorem except_bind_ok {e1 a b : Type} (x : a) (f : a → Except e1 b) :
    (Except.ok x >>= f) = f x := rfl

/-- Python exceptions observable from `_recipients_from_packed_message`. -/
inductive PyErr where
  | valueError (msg : String)
  | keyError (key : String)
  | typeError
  | binasciiError
  | unicodeDecodeError
deriving DecidableEq, Repr

/-- Python subscription `v[k]` with a string key: objects yield the value
or `KeyError`; anything else raises `TypeError`. -/
def pySubscript (v : Json) (k : String) : Except PyErr Json :=
  match v with
  | .obj entries =>
    match Json.entriesGet entries k with
    | some x => .ok x
    | none => .error (.keyError k)
  | _ => .error .typeError

/-- The comprehension `[recip["header"]["kid"] for recip in recipients]`
over a JSON array. -/
def kidsOf : List Json → Except PyErr (List Json)
  | [] => .ok []
  | recip :: rest => do
    let hdr ← pySubscript recip "header"
    let kid ← pySubscript hdr "kid"
    let ks ← kidsOf rest
    pure (kid :: ks)

/-- Embedding of `Agent._recipients_from_packed_message` (agent.py lines
111-128): parse the packed message (`ValueError "Invalid packed message"`
on failure — the spec's `InvalidEnvelope`), subscript `"protected"`
(KeyError/TypeError uncaught), base64url-decode and ascii-decode it, parse
the result (`ValueError "Invalid packed message recipients"` on failure),
subscript `"recipients"` and collect `header.kid` of each entry.  The
operation never decrypts: no key material is consulted. -/
def recipients_from_packed_message (packed : String) :
    Except PyErr (List Json) :=
  match json_loads packed with
  | none => .error (.valueError "Invalid packed message")
  | some wrapper => do
    let protectedVal ← pySubscript wrapper "protected"
    let pstr ← match protectedVal with
      | .str s => Except.ok s
      | _ => Except.error .typeError
    let pbytes ← match b64_to_bytes pstr true with
      | some bs => Except.ok bs
      | none => Except.error .binasciiError
    let rstr ← match asciiDecode pbytes with
      | some s => Except.ok s
      | none => Except.error .unicodeDecodeError
    let recipsOuter ← match json_loads rstr with
      | none => Except.error (.valueError "Invalid packed message recipients")
      | some j => Except.ok j
    let recipsArr ← pySubscript recipsOuter "recipients"
    match recipsArr with
    | .arr items => kidsOf items
    | .str "" => .ok []
    | .obj [] => .ok []
    | _ => .error .typeError

/-- C4 counterexample: the packed message `"{}"` is well-formed JSON whose
object lacks the `protected` header; the claim says this fails with the
`InvalidEnvelope` error (`ValueError "Invalid packed message"`), but the
code raises an uncaught `KeyError("protected")` at
`wrapper["protected"]`. -/
theorem c4_recipients_counterexample :
    recipients_from_packed_message "\x7b\x7d"
        = .error (.keyError "protected")
    ∧ PyErr.keyError "protected" ≠ PyErr.valueError "Invalid packed message" := by
  exact ⟨rfl, by decide⟩

/-- C4 (amended): malformed JSON input fails with the `InvalidEnvelope`
error (`ValueError "Invalid packed message"`); input whose JSON object
lacks the `protected` entry instead raises an uncaught
`KeyError("protected")`; a `protected` value whose decoded bytes are not
JSON fails with `ValueError "Invalid packed message recipients"`.  The
operation never decrypts (the embedding consumes no key material). -/
theorem c4_recipients_errors (s : String) :
    (json_loads s = none →
      recipients_from_packed_message s
        = .error (.valueError "Invalid packed message"))
    ∧ (∀ entries, json_loads s = some (.obj entries) →
      Json.entriesGet entries "protected" = none →
      recipients_from_packed_message s = .error (.keyError "protected"))
    ∧ (∀ entries p pbytes rstr, json_loads s = some (.obj entries) →
      Json.entriesGet entries "protected" = some (.str p) →
      b64_to_bytes p true = some pbytes →
      asciiDecode pbytes = some rstr →
      json_loads rstr = none →
      recipients_from_packed_message s
        = .error (.valueError "Invalid packed message recipients")) := by
  refine ⟨?_, ?_, ?_⟩
  · intro h
    simp [recipients_from_packed_message, h]
  · intro entries hj hget
    simp [recipients_from_packed_message, hj, pySubscript, hget,
      except_bind_error, except_bind_ok]
  · intro entries p pbytes rstr hj hget hb64 hascii hinner
    simp [recipients_from_packed_message, hj, pySubscript, hget, hb64,
      hascii, hinner, except_bind_error, except_bind_ok]

/-- Closed witness for C4's amended theorem: a non-JSON input, an object
without `protected`, and a `protected` value decoding to non-JSON
bytes. -/
theorem c4_recipients_errors_witness :
    recipients_from_packed_message "notjson"
        = .error (.valueError "Invalid packed message")
    ∧ recipients_from_packed_message "\x7b\"a\": 1\x7d"
        = .error (.keyError "protected")
    ∧ recipients_from_packed_message "\x7b\"protected\": \"bm90IGpzb24\"\x7d"
        = .error (.valueError "Invalid packed message recipients") :=
  ⟨(c4_recipients_errors "notjson").1 rfl,
    (c4_recipients_errors "\x7b\"a\": 1\x7d").2.1 [("a", .num 1)] rfl rfl,
    (c4_recipients_errors "\x7b\"protected\": \"bm90IGpzb24\"\x7d").2.2
      [("protected", .str "bm90IGpzb24")] "bm90IGpzb24"
      [110, 111, 116, 32, 106, 115, 111, 110] "not json" rfl rfl rfl rfl rfl⟩

/-! ## Connection serialization (`to_store` / `from_store`)

Embedding of `Connection.to_store` (connection.py lines 48-66) and
`Connection.from_store` (lines 68-81).  `to_store` returns
`json.dumps(value)` and the store hands the parsed dict back to
`from_store`; the embedding works at the JSON-value level, with
`json.dumps`/`json.loads` as the identity pair on values.  `from_parts`
(aries_staticagent) rebuilds the keypair from base58 and a `Target` whose
constructor keeps `recipients = None` unless given a non-empty list
(Python `if recipients:`); the claim compares connections fieldwise, so
the embedding exposes exactly those projections. -/

namespace ConnectionStore

/-- The target of a stored connection: optional recipient byte keys and
optional endpoint. -/
structure PyTarget where
  recipients : Option (List (List Nat))
  endpoint : Option String
deriving DecidableEq, Repr

/-- A `Connection` as serialized by connection.py: `did` and `verkey_b58`
are derived from `verkey` (aries_staticagent derives the DID from the
first 16 key bytes). -/
structure Connection where
  state : String
  multiuse : Bool
  invitation_key : Option String
  verkey : List Nat
  sigkey : List Nat
  target : Option PyTarget
  diddoc : Option (List (String × Json))

/-- `verkey_b58` of a connection. -/
def Connection.verkey_b58 (c : Connection) : String := b58encode c.verkey

/-- The sovrin-style DID derived from the first 16 verkey bytes. -/
def Connection.did (c : Connection) : String := b58encode (c.verkey.take 16)

/-- Fieldwise projection: the recipients of the target, if any. -/
def Connection.targetRecipients (c : Connection) : Option (List (List Nat)) :=
  match c.target with
  | some t => t.recipients
  | none => none

/-- Fieldwise projection: the endpoint of the target, if any. -/
def Connection.targetEndpoint (c : Connection) : Option String :=
  match c.target with
  | some t => t.endpoint
  | none => none

/-- Embedding of `Connection.to_store`: the fixed JSON shape, with the
`target` entry appended only when a target is present and `None`
recipients rendered as `[]` (`self.target.recipients or []`). -/
def to_store (c : Connection) : Json :=
  .obj ([("state", .str c.state),
    ("multiuse", .bool c.multiuse),
    ("invitation_key",
      match c.invitation_key with | none => .null | some s => .str s),
    ("did", .str c.did),
    ("verkey", .str c.verkey_b58),
    ("sigkey", .str (b58encode c.sigkey)),
    ("diddoc", match c.diddoc with | none => .null | some d => .obj d)]
    ++ (match c.target with
      | none => []
      | some t => [("target", .obj [
          ("recipients", .arr ((match t.recipients with
            | none => []
            | some rs => rs).map (fun r => .str (b58encode r)))),
          ("endpoint",
            match t.endpoint with | none => .null | some e => .str e)])]))

/-- Decode a list of base58 recipient keys (`ensure_key_bytes` inside the
`Target` constructor); `none` models its `ValueError`. -/
def decodeKeys : List String → Option (List (List Nat))
  | [] => some []
  | s :: ss =>
    match b58decode s, decodeKeys ss with
    | some b, some bs => some (b :: bs)
    | _, _ => none

/-- The `Target` constructor truthiness: recipients are kept only when
the given list is non-empty. -/
def mkTarget (recips : Option (List String)) (endpoint : Option String) :
    Option PyTarget :=
  match recips with
  | some (r :: rs) =>
    match decodeKeys (r :: rs) with
    | some bs => some ⟨some bs, endpoint⟩
    | none => none
  | _ => some ⟨none, endpoint⟩

/-- Extract a list of strings from a JSON array (recipient keys read back
from storage). -/
def strsOf : List Json → Option (List String)
  | [] => some []
  | .str s :: rest => (strsOf rest).map (fun ss => s :: ss)
  | _ => none

/-- Embedding of `Connection.from_store` composed with `from_parts`:
rebuild the keys from base58, the target from
`value.get("target", {}).get(...)` (JSON null mapping to Python `None`),
and copy state, multiuse, invitation_key and diddoc. -/
def from_store (value : Json) : Option Connection := do
  let stateJ ← value.get? "state"
  let state ← match stateJ with | .str s => some s | _ => none
  let multiuseJ ← value.get? "multiuse"
  let multiuse ← match multiuseJ with | .bool b => some b | _ => none
  let ikJ ← value.get? "invitation_key"
  let invitation_key ← match ikJ with
    | .null => some none
    | .str s => some (some s)
    | _ => none
  let vkJ ← value.get? "verkey"
  let vkStr ← match vkJ with | .str s => some s | _ => none
  let skJ ← value.get? "sigkey"
  let skStr ← match skJ with | .str s => some s | _ => none
  let ddJ ← value.get? "diddoc"
  let diddoc ← match ddJ with
    | .null => some none
    | .obj d => some (some d)
    | _ => none
  let verkey ← b58decode vkStr
  let sigkey ← b58decode skStr
  let recipsOpt ← match (match value.get? "target" with
      | some t => t.get? "recipients"
      | none => none) with
    | none => some none
    | some .null => some none
    | some (.arr items) => (strsOf items).map some
    | some _ => none
  let endpointOpt ← match (match value.get? "target" with
      | some t => t.get? "endpoint"
      | none => none) with
    | none => some none
    | some .null => some none
    | some (.str e) => some (some e)
    | some _ => none
  let target ← mkTarget recipsOpt endpointOpt
  pure ⟨state, multiuse, invitation_key, verkey, sigkey, some target, diddoc⟩

theorem strsOf_map_encode (l : List (List Nat)) :
    strsOf (l.map (fun r => Json.str (b58encode r)))
      = some (l.map (fun r => b58encode r)) := by
  induction l with
  | nil => rfl
  | cons s rest ih => simp [strsOf, ih]

theorem decodeKeys_map_encode (rs : List (List Nat))
    (h : ∀ r ∈ rs, ∀ x ∈ r, x < 256) :
    decodeKeys (rs.map (fun r => b58encode r)) = some rs := by
  induction rs with
  | nil => rfl
  | cons r rest ih =>
    simp only [List.map_cons, decodeKeys]
    rw [b58decode_b58encode r (h r (by simp)),
      ih (fun q hq x hx => h q (by simp [hq]) x hx)]

end ConnectionStore

set_option maxHeartbeats 1000000 in
/-- C6: reconstitution from storage is a left inverse of serialization,
fieldwise on state, multiuse, invitation_key, did, verkey, sigkey,
target.recipients, target.endpoint and diddoc — including connections
whose target is absent.  Hypotheses: key material consists of bytes, and
a present recipients list is non-empty (the `Target` constructor never
stores an empty list). -/
theorem c6_store_roundtrip (c : ConnectionStore.Connection)
    (hvk : ∀ x ∈ c.verkey, x < 256)
    (hsk : ∀ x ∈ c.sigkey, x < 256)
    (hrec : ∀ t, c.target = some t → ∀ rs, t.recipients = some rs →
      rs ≠ [] ∧ ∀ r ∈ rs, ∀ x ∈ r, x < 256) :
    ∃ c2, ConnectionStore.from_store (ConnectionStore.to_store c) = some c2
      ∧ c2.state = c.state
      ∧ c2.multiuse = c.multiuse
      ∧ c2.invitation_key = c.invitation_key
      ∧ c2.did = c.did
      ∧ c2.verkey = c.verkey
      ∧ c2.sigkey = c.sigkey
      ∧ c2.targetRecipients = c.targetRecipients
      ∧ c2.targetEndpoint = c.targetEndpoint
      ∧ c2.diddoc = c.diddoc := by
  classical
  obtain ⟨state, multiuse, ik, vk, sk, target, diddoc⟩ := c
  simp only at hvk hsk hrec
  rcases target with _ | ⟨recips, ep⟩
  · -- no target stored
    refine ⟨⟨state, multiuse, ik, vk, sk, some ⟨none, none⟩, diddoc⟩, ?_,
      rfl, rfl, rfl, ?_, rfl, rfl, rfl, rfl, rfl⟩
    · cases ik <;> cases diddoc <;>
        simp [ConnectionStore.to_store, ConnectionStore.from_store,
          ConnectionStore.mkTarget, Json.get?, Json.entriesGet,
          ConnectionStore.Connection.did,
          ConnectionStore.Connection.verkey_b58,
          b58decode_b58encode vk hvk, b58decode_b58encode sk hsk]
    · rfl
  · rcases recips with _ | ⟨_ | ⟨r, rs⟩⟩
    · -- target with recipients = None: stored as [], restored as None
      refine ⟨⟨state, multiuse, ik, vk, sk, some ⟨none, ep⟩, diddoc⟩, ?_,
        rfl, rfl, rfl, ?_, rfl, rfl, rfl, rfl, rfl⟩
      · cases ik <;> cases diddoc <;> cases ep <;>
          simp [ConnectionStore.to_store, ConnectionStore.from_store,
            ConnectionStore.mkTarget, ConnectionStore.strsOf, Json.get?,
            Json.entriesGet, ConnectionStore.Connection.did,
            ConnectionStore.Connection.verkey_b58,
            b58decode_b58encode vk hvk, b58decode_b58encode sk hsk]
      · rfl
    · -- target with recipients = some []: excluded by the Target invariant
      exact absurd rfl (hrec ⟨some [], ep⟩ rfl [] rfl).1
    · -- target with non-empty recipients
      have hkeys : ∀ q ∈ r :: rs, ∀ x ∈ q, x < 256 :=
        (hrec ⟨some (r :: rs), ep⟩ rfl (r :: rs) rfl).2
      have hs : ConnectionStore.strsOf
          (Json.str (b58encode r) :: rs.map (fun x => Json.str (b58encode x)))
          = some (b58encode r :: rs.map (fun x => b58encode x)) := by
        simpa using ConnectionStore.strsOf_map_encode (r :: rs)
      have hdk : ConnectionStore.decodeKeys
          (b58encode r :: rs.map (fun x => b58encode x)) = some (r :: rs) := by
        simpa using ConnectionStore.decodeKeys_map_encode (r :: rs) hkeys
      refine ⟨⟨state, multiuse, ik, vk, sk, some ⟨some (r :: rs), ep⟩, diddoc⟩,
        ?_, rfl, rfl, rfl, ?_, rfl, rfl, rfl, rfl, rfl⟩
      · cases ik <;> cases diddoc <;> cases ep <;>
          simp [ConnectionStore.to_store, ConnectionStore.from_store,
            ConnectionStore.mkTarget, Json.get?, Json.entriesGet,
            hs, hdk,
            ConnectionStore.Connection.did,
            ConnectionStore.Connection.verkey_b58,
            b58decode_b58encode vk hvk, b58decode_b58encode sk hsk]
      · rfl

/-- Closed witness for C6 at a concrete connection with a populated
target. -/
theorem c6_store_roundtrip_witness :
    ∃ c2, ConnectionStore.from_store (ConnectionStore.to_store
      ⟨"complete", false, some "inviteKey", List.range 32, List.range 32,
        some ⟨some [List.range 32], some "http://agent:3000"⟩,
        some [("id", .str "did:sov:x")]⟩) = some c2
      ∧ c2.state = "complete"
      ∧ c2.targetEndpoint = some "http://agent:3000"
      ∧ c2.targetRecipients = some [List.range 32]
      ∧ c2.verkey = List.range 32 := by
  obtain ⟨c2, h1, h2, h3, h4, h5, h6, h7, h8, h9, h10⟩ :=
    c6_store_roundtrip
      ⟨"complete", false, some "inviteKey", List.range 32, List.range 32,
        some ⟨some [List.range 32], some "http://agent:3000"⟩,
        some [("id", .str "did:sov:x")]⟩
      (by decide) (by decide)
      (by
        intro t ht rs hrs
        cases ht
        cases hrs
        exact ⟨by decide, by decide⟩)
  exact ⟨c2, h1, h2, h9, h8, h6⟩

/-! ## Connection protocol handlers (response / request)

Embedding of `Connections.response` (protocols/connections.py lines
229-263), `OobDidExchange.response` (protocols/oob_didexchange.py lines
315-352), `Connections.request` (connections.py lines 156-227) and
`OobDidExchange.request` (oob_didexchange.py lines 274-313).  The
cryptographic verification primitives are external; a signed field or
attachment is modelled by its recovered signer together with a validity
bit, exactly the information `verify_signed_message_field` /
`verify_signed_attachment` return (the former raising on a bad
signature). -/

namespace Protocols

/-- Errors observable from the connection protocol handlers. -/
inductive HandlerErr where
  | transitionError
  | machineAttributeError
  | badSignature
  | protocolError (msg : String)
  | assertionError
  | invalidStateError
  | keyError (k : String)
  | indexError
  | typeError
  | b58Error
  | didkeyError
deriving DecidableEq, Repr

/-- A connection as the response handlers see it. -/
structure PConn where
  state : ConnState
  invitation_key : Option String
  target : Option ConnectionStore.PyTarget
  diddoc : Option Json
  completed : Bool

/-- A legacy `connection~sig` field after `verify_signed_message_field`:
the recovered base58 signer and the decoded connection block; `valid`
models whether the signature check passed (the primitive raises
otherwise). -/
structure SigField where
  signer : String
  data : Json
  valid : Bool

/-- `Target.update` truthiness (aries_staticagent): an empty recipients
list or empty endpoint leaves the old value in place. -/
def targetUpdate (t : ConnectionStore.PyTarget)
    (recips : List (List Nat)) (endpoint : Option String) :
    ConnectionStore.PyTarget :=
  { recipients := match recips with | [] => t.recipients | _ => some recips,
    endpoint := match endpoint with
      | some e => if e = "" then t.endpoint else some e
      | none => t.endpoint }

/-- Extract `DIDDoc`, its first service's `recipientKeys` (decoded from
base58) and `serviceEndpoint` from a legacy connection block. -/
def extractServiceTarget (block : Json) :
    Except HandlerErr (Json × List (List Nat) × Option String) :=
  match block.get? "DIDDoc" with
  | none => .error (.keyError "DIDDoc")
  | some ddoc =>
    match ddoc.get? "service" with
    | none => .error (.keyError "service")
    | some svcs =>
      match svcs with
      | .arr [] => .error .indexError
      | .arr (svc :: _) =>
        match svc.get? "recipientKeys" with
        | none => .error (.keyError "recipientKeys")
        | some rk =>
          match rk with
          | .arr items =>
            match ConnectionStore.strsOf items with
            | none => .error .typeError
            | some strs =>
              match ConnectionStore.decodeKeys strs with
              | none => .error .b58Error
              | some recips =>
                match svc.get? "serviceEndpoint" with
                | none => .error (.keyError "serviceEndpoint")
                | some (.str e) => .ok (ddoc, recips, some e)
                | some .null => .ok (ddoc, recips, none)
                | some _ => .error .typeError
          | _ => .error .typeError
      | _ => .error .typeError

/-- Embedding of `Connections.response`: fire `receive_response`, verify
the signed field (raising on a bad signature), require the signer to be
the invitation key, then — and only then — update the target from the
signed DID document, record the diddoc, complete the connection and send
a trust-ping after `send_ping`.  Returns the connection as mutated so far
together with the outcome. -/
def legacy_response (conn : PConn) (sig : SigField) :
    PConn × Except HandlerErr Unit :=
  match ConnectionMachine.fire conn.state .receiveResponse with
  | .ok s1 =>
    let conn1 : PConn := { conn with state := s1 }
    if ¬sig.valid then (conn1, .error .badSignature)
    else if conn1.invitation_key ≠ some sig.signer then
      (conn1, .error (.protocolError
        "Connection response not signed by invitation key"))
    else
      match conn1.target with
      | none => (conn1, .error .assertionError)
      | some t =>
        match extractServiceTarget sig.data with
        | .error e => (conn1, .error e)
        | .ok (ddoc, recips, endpoint) =>
          let conn2 : PConn := { conn1 with
            target := some (targetUpdate t recips endpoint),
            diddoc := some ddoc }
          if conn1.completed then (conn2, .error .invalidStateError)
          else
            let conn3 : PConn := { conn2 with completed := true }
            match ConnectionMachine.fire conn3.state .sendPing with
            | .ok s4 => ({ conn3 with state := s4 }, .ok ())
            | .illegalTransition => (conn3, .error .transitionError)
            | .attributeError => (conn3, .error .machineAttributeError)
  | .illegalTransition => (conn, .error .transitionError)
  | .attributeError => (conn, .error .machineAttributeError)

/-- A DID-exchange response message after attachment processing: the
signature validity bit and recovered signer bytes from
`verify_signed_attachment`, the normalized attached DID document, and the
outcome of `target_from_doc` on it (external pydid resolution). -/
structure OobResponseMsg where
  valid : Bool
  signer : List Nat
  doc : Json
  targetExtract : Except HandlerErr ConnectionStore.PyTarget

/-- Embedding of `OobDidExchange.response`: fire `receive_response`,
verify the attachment (ProtocolError on a bad signature), extract the
target, `assert` the invitation key, require the signer to equal its
did:key decoding, then — and only then — assign the new target, record
the diddoc and complete the connection.  The final
`ConnectionMachine(conn).send_complete()` raises `AttributeError` (the
event does not exist; claim C3), so even the accepting run ends in an
exception after the connection state was updated. -/
def oob_response (conn : PConn) (msg : OobResponseMsg) :
    PConn × Except HandlerErr Unit :=
  match ConnectionMachine.fire conn.state .receiveResponse with
  | .ok s1 =>
    let conn1 : PConn := { conn with state := s1 }
    if ¬msg.valid then
      (conn1, .error (.protocolError "Invalid signature on DID Doc"))
    else
      match msg.targetExtract with
      | .error e => (conn1, .error e)
      | .ok target =>
        match conn1.invitation_key with
        | none => (conn1, .error .assertionError)
        | some ik =>
          match didkey_to_verkey ik with
          | .error _ => (conn1, .error .didkeyError)
          | .ok ikVerkey =>
            if msg.signer ≠ ikVerkey then
              (conn1, .error (.protocolError
                "Connection response not signed by invitation key"))
            else
              match conn1.target with
              | none => (conn1, .error .assertionError)
              | some _ =>
                let conn2 : PConn := { conn1 with
                  target := some target, diddoc := some msg.doc }
                if conn1.completed then (conn2, .error .invalidStateError)
                else
                  let conn3 : PConn := { conn2 with completed := true }
                  match ConnectionMachine.fire conn3.state .sendComplete with
                  | .ok s4 => ({ conn3 with state := s4 }, .ok ())
                  | .illegalTransition => (conn3, .error .transitionError)
                  | .attributeError => (conn3, .error .machineAttributeError)
  | .illegalTransition => (conn, .error .transitionError)
  | .attributeError => (conn, .error .machineAttributeError)

end Protocols

/-- C9: in both response handlers, the signed payload is verified and
accepted only when the recovered signer equals the connection's
invitation key.  Conjuncts: (legacy) a bad signature raises with target,
diddoc and completion untouched; a signer different from the invitation
key raises `ProtocolError` with target, diddoc and completion untouched;
a matching signer updates target and diddoc from the signed document and
completes the connection.  (OOB) the same three facts, with the signer
compared against `didkey_to_verkey(invitation_key)`; the accepting OOB
run still ends in the `send_complete` `AttributeError` (claim C3) but
only after the updates were applied. -/
theorem c9_response_signature_gate (conn : Protocols.PConn)
    (hstate : conn.state = .request_sent) :
    (∀ sig : Protocols.SigField, sig.valid = false →
      Protocols.legacy_response conn sig
        = ({ conn with state := .response_received },
            .error .badSignature))
    ∧ (∀ sig : Protocols.SigField, sig.valid = true →
      conn.invitation_key ≠ some sig.signer →
      Protocols.legacy_response conn sig
        = ({ conn with state := .response_received },
            .error (.protocolError
              "Connection response not signed by invitation key")))
    ∧ (∀ sig t ddoc recips endpoint, sig.valid = true →
      conn.invitation_key = some sig.signer →
      conn.target = some t →
      Protocols.extractServiceTarget sig.data = .ok (ddoc, recips, endpoint) →
      conn.completed = false →
      Protocols.legacy_response conn sig
        = ({ conn with
              state := .complete
              target := some (Protocols.targetUpdate t recips endpoint)
              diddoc := some ddoc
              completed := true }, .ok ()))
    ∧ (∀ msg : Protocols.OobResponseMsg, msg.valid = false →
      Protocols.oob_response conn msg
        = ({ conn with state := .response_received },
            .error (.protocolError "Invalid signature on DID Doc")))
    ∧ (∀ msg target ik ikVerkey, msg.valid = true →
      Protocols.OobResponseMsg.targetExtract msg = .ok target →
      conn.invitation_key = some ik →
      didkey_to_verkey ik = .ok ikVerkey →
      Protocols.OobResponseMsg.signer msg ≠ ikVerkey →
      Protocols.oob_response conn msg
        = ({ conn with state := .response_received },
            .error (.protocolError
              "Connection response not signed by invitation key")))
    ∧ (∀ msg target ik ikVerkey t, msg.valid = true →
      Protocols.OobResponseMsg.targetExtract msg = .ok target →
      conn.invitation_key = some ik →
      didkey_to_verkey ik = .ok ikVerkey →
      Protocols.OobResponseMsg.signer msg = ikVerkey →
      conn.target = some t →
      conn.completed = false →
      Protocols.oob_response conn msg
        = ({ conn with
              state := .response_received
              target := some target
              diddoc := some msg.doc
              completed := true }, .error .machineAttributeError)) := by
  have hfire : ConnectionMachine.fire conn.state .receiveResponse
      = .ok .response_received := by
    rw [hstate]
    rfl
  refine ⟨?_, ?_, ?_, ?_, ?_, ?_⟩
  · intro sig hv
    simp [Protocols.legacy_response, hfire, hv]
  · intro sig hv hne
    simp [Protocols.legacy_response, hfire, hv, hne]
  · intro sig t ddoc recips endpoint hv hik ht hx hc
    simp [Protocols.legacy_response, hfire, hv, hik, ht, hx, hc]
    rfl
  · intro msg hv
    simp [Protocols.oob_response, hfire, hv]
  · intro msg target ik ikVerkey hv hx hik hdk hne
    simp [Protocols.oob_response, hfire, hv, hx, hik, hdk, hne]
  · intro msg target ik ikVerkey t hv hx hik hdk hsig ht hc
    simp [Protocols.oob_response, hfire, hv, hx, hik, hdk, hsig, ht, hc]
    rfl

/-- Closed witness for C9: a legacy response whose signer differs from
the invitation key is rejected with the connection unchanged apart from
the state transition, and one with a matching signer is accepted. -/
theorem c9_response_signature_gate_witness :
    Protocols.legacy_response
        ⟨.request_sent, some "inviteKey", some ⟨none, none⟩, none, false⟩
        ⟨"otherKey", .null, true⟩
      = (⟨.response_received, some "inviteKey", some ⟨none, none⟩, none,
          false⟩,
          .error (.protocolError
            "Connection response not signed by invitation key"))
    ∧ Protocols.legacy_response
        ⟨.request_sent, some "inviteKey", some ⟨none, none⟩, none, false⟩
        ⟨"inviteKey",
          .obj [("DIDDoc", .obj [("service", .arr [.obj [
            ("recipientKeys", .arr [.str (b58encode [1, 2, 3])]),
            ("serviceEndpoint", .str "http://bob:3000")]])])], true⟩
      = (⟨.complete, some "inviteKey",
          some ⟨some [[1, 2, 3]], some "http://bob:3000"⟩,
          some (.obj [("service", .arr [.obj [
            ("recipientKeys", .arr [.str (b58encode [1, 2, 3])]),
            ("serviceEndpoint", .str "http://bob:3000")]])]),
          true⟩, .ok ()) := by
  constructor
  · exact (c9_response_signature_gate _ rfl).2.1
      ⟨"otherKey", .null, true⟩ rfl (by simp)
  · have hx : Protocols.extractServiceTarget
        (.obj [("DIDDoc", .obj [("service", .arr [.obj [
          ("recipientKeys", .arr [.str (b58encode [1, 2, 3])]),
          ("serviceEndpoint", .str "http://bob:3000")]])])])
        = .ok ((.obj [("service", .arr [.obj [
            ("recipientKeys", .arr [.str (b58encode [1, 2, 3])]),
            ("serviceEndpoint", .str "http://bob:3000")]])]),
            [[1, 2, 3]], some "http://bob:3000") := by
      have hdec : b58decode (b58encode [1, 2, 3]) = some [1, 2, 3] :=
        b58decode_b58encode [1, 2, 3] (by decide)
      simp [Protocols.extractServiceTarget, Json.get?, Json.entriesGet,
        ConnectionStore.strsOf, ConnectionStore.decodeKeys, hdec]
    exact (c9_response_signature_gate _ rfl).2.2.1
      ⟨"inviteKey", _, true⟩ ⟨none, none⟩ _ [[1, 2, 3]]
      (some "http://bob:3000") rfl rfl rfl hx rfl

/-! ## Request handlers and the connection registry (claim C10)

The registry `self.connections` is a Python dict from `verkey_b58` to
connection objects (modelled by their ids).  Both request handlers pop a
non-multiuse invitation connection from it before validating the request
body. -/

namespace Protocols

/-- The registry: base58 verkey to connection object id.  A Python dict
has no duplicate keys, which theorems assume via `Nodup` on the keys. -/
def Registry := List (String × Nat)

/-- Dict lookup. -/
def regGet (reg : Registry) (k : String) : Option Nat :=
  match reg with
  | [] => none
  | e :: rest => if e.fst = k then some e.snd else regGet rest k

/-- `dict.pop(key)` without default: `none` models the `KeyError` on a
missing key. -/
def regPop (reg : Registry) (k : String) : Option Registry :=
  match reg with
  | [] => none
  | e :: rest =>
    if e.fst = k then some rest
    else (regPop rest k).map (fun r => e :: r)

/-- `dict[key] = value` (the new relationship connection is always a
fresh key, but the model keeps full dict semantics). -/
def regSet (reg : Registry) (k : String) (v : Nat) : Registry :=
  match reg with
  | [] => [(k, v)]
  | e :: rest => if e.fst = k then (k, v) :: rest else e :: regSet rest k v

/-- The invitation connection as the request handlers see it. -/
structure IConn where
  cid : Nat
  verkey_b58 : String
  multiuse : Bool
  state : ConnState

/-- Embedding of `Connections.request` restricted to its registry effect:
pop the invitation connection unless multiuse (KeyError if absent), fire
`receive_request` on it, validate the request body (the `Target`
construction from `msg["connection"]["DIDDoc"]` — abstracted as the given
outcome), then insert the fresh relationship connection under its new
verkey. -/
def legacy_request (reg : Registry) (invite : IConn)
    (validation : Except HandlerErr Unit) (newKey : String) (newCid : Nat) :
    Registry × Except HandlerErr Unit :=
  match (if invite.multiuse then some reg
    else regPop reg invite.verkey_b58) with
  | none => (reg, .error (.keyError invite.verkey_b58))
  | some reg1 =>
    match ConnectionMachine.fire invite.state .receiveRequest with
    | .ok _ =>
      match validation with
      | .error e => (reg1, .error e)
      | .ok _ => (regSet reg1 newKey newCid, .ok ())
    | .illegalTransition => (reg1, .error .transitionError)
    | .attributeError => (reg1, .error .machineAttributeError)

/-- Embedding of `OobDidExchange.request` restricted to its registry
effect: pop unless multiuse, then validate the signed `did_doc~attach`
and resolve the target (abstracted outcome), then fire `receive_request`
and insert the fresh relationship connection. -/
def oob_request (reg : Registry) (invite : IConn)
    (validation : Except HandlerErr Unit) (newKey : String) (newCid : Nat) :
    Registry × Except HandlerErr Unit :=
  match (if invite.multiuse then some reg
    else regPop reg invite.verkey_b58) with
  | none => (reg, .error (.keyError invite.verkey_b58))
  | some reg1 =>
    match validation with
    | .error e => (reg1, .error e)
    | .ok _ =>
      match ConnectionMachine.fire invite.state .receiveRequest with
      | .ok _ => (regSet reg1 newKey newCid, .ok ())
      | .illegalTransition => (reg1, .error .transitionError)
      | .attributeError => (reg1, .error .machineAttributeError)

theorem regGet_eq_none_of_not_mem (reg : Registry) (k : String)
    (h : k ∉ reg.map Prod.fst) : regGet reg k = none := by
  induction reg with
  | nil => rfl
  | cons f rfs ih =>
    simp only [regGet]
    rw [if_neg (fun habs => h (by simp [← habs]))]
    exact ih (fun habs => h (by simp at habs ⊢; tauto))

theorem regGet_pop_of_nodup (reg : Registry) (k : String)
    (hnodup : (reg.map Prod.fst).Nodup) :
    ∀ reg1, regPop reg k = some reg1 → regGet reg1 k = none := by
  induction reg with
  | nil => intro reg1 h; simp [regPop] at h
  | cons e rest ih =>
    intro reg1 h
    have hcons : (e.fst :: rest.map Prod.fst).Nodup := by simpa using hnodup
    simp only [regPop] at h
    by_cases he : e.fst = k
    · rw [if_pos he] at h
      cases h
      have hk : e.fst ∉ rest.map Prod.fst := (List.nodup_cons.mp hcons).1
      exact regGet_eq_none_of_not_mem rest k (he ▸ hk)
    · rw [if_neg he] at h
      match hrec : regPop rest k with
      | none => rw [hrec] at h; simp at h
      | some r2 =>
        rw [hrec] at h
        simp at h
        rw [← h, regGet, if_neg he]
        exact ih (List.nodup_cons.mp hcons).2 r2 hrec

theorem regGet_set_ne (reg : Registry) (k k2 : String) (v : Nat)
    (hne : k2 ≠ k) : regGet (regSet reg k2 v) k = regGet reg k := by
  induction reg with
  | nil => simp [regSet, regGet, hne]
  | cons e rest ih =>
    simp only [regSet]
    by_cases he : e.fst = k2
    · rw [if_pos he]
      simp only [regGet]
      rw [if_neg hne, if_neg (by rw [he]; exact hne)]
    · rw [if_neg he]
      simp only [regGet, ih]

theorem regPop_some_of_get (reg : Registry) (k : String) :
    ∀ v, regGet reg k = some v → ∃ reg1, regPop reg k = some reg1 := by
  induction reg with
  | nil => intro v h; simp [regGet] at h
  | cons e rest ih =>
    intro v h
    simp only [regGet] at h
    simp only [regPop]
    by_cases he : e.fst = k
    · exact ⟨rest, by rw [if_pos he]⟩
    · rw [if_neg he] at h
      obtain ⟨r1, hr1⟩ := ih v h
      exact ⟨e :: r1, by rw [if_neg he, hr1]; rfl⟩

end Protocols

/-- C10: in both request handlers a non-multiuse invitation connection is
popped from the registry before the request body is validated, so the
entry under the invitation verkey is absent after the handler runs —
whatever the validation outcome, including failure — while a multiuse
invitation's entry is left in place.  Hypotheses: the invitation is
registered, registry keys are duplicate-free (a Python dict), and the
fresh relationship key differs from the invitation key. -/
theorem c10_request_pops_invitation (reg : Protocols.Registry)
    (invite : Protocols.IConn) (validation : Except Protocols.HandlerErr Unit)
    (newKey : String) (newCid : Nat)
    (hin : Protocols.regGet reg invite.verkey_b58 = some invite.cid)
    (hnodup : (reg.map Prod.fst).Nodup)
    (hfresh : newKey ≠ invite.verkey_b58) :
    (invite.multiuse = false →
      Protocols.regGet
        (Protocols.legacy_request reg invite validation newKey newCid).fst
        invite.verkey_b58 = none
      ∧ Protocols.regGet
        (Protocols.oob_request reg invite validation newKey newCid).fst
        invite.verkey_b58 = none)
    ∧ (invite.multiuse = true →
      Protocols.regGet
        (Protocols.legacy_request reg invite validation newKey newCid).fst
        invite.verkey_b58 = some invite.cid
      ∧ Protocols.regGet
        (Protocols.oob_request reg invite validation newKey newCid).fst
        invite.verkey_b58 = some invite.cid) := by
  obtain ⟨reg1, hpop⟩ :=
    Protocols.regPop_some_of_get reg invite.verkey_b58 invite.cid hin
  have hgone : Protocols.regGet reg1 invite.verkey_b58 = none :=
    Protocols.regGet_pop_of_nodup reg invite.verkey_b58 hnodup reg1 hpop
  constructor
  · intro hmu
    constructor
    · rw [Protocols.legacy_request]
      rw [if_neg (by rw [hmu]; exact fun h => Bool.noConfusion h), hpop]
      rcases ConnectionMachine.fire invite.state .receiveRequest with s | _ | _
      · rcases validation with e | u
        · exact hgone
        · simp only
          rw [Protocols.regGet_set_ne reg1 invite.verkey_b58 newKey newCid
            hfresh]
          exact hgone
      · exact hgone
      · exact hgone
    · rw [Protocols.oob_request]
      rw [if_neg (by rw [hmu]; exact fun h => Bool.noConfusion h), hpop]
      rcases validation with e | u
      · exact hgone
      · rcases ConnectionMachine.fire invite.state .receiveRequest with s | _ | _
        · simp only
          rw [Protocols.regGet_set_ne reg1 invite.verkey_b58 newKey newCid
            hfresh]
          exact hgone
        · exact hgone
        · exact hgone
  · intro hmu
    constructor
    · rw [Protocols.legacy_request]
      rw [if_pos (by rw [hmu])]
      rcases ConnectionMachine.fire invite.state .receiveRequest with s | _ | _
      · rcases validation with e | u
        · exact hin
        · simp only
          rw [Protocols.regGet_set_ne reg invite.verkey_b58 newKey newCid
            hfresh]
          exact hin
      · exact hin
      · exact hin
    · rw [Protocols.oob_request]
      rw [if_pos (by rw [hmu])]
      rcases validation with e | u
      · exact hin
      · rcases ConnectionMachine.fire invite.state .receiveRequest with s | _ | _
        · simp only
          rw [Protocols.regGet_set_ne reg invite.verkey_b58 newKey newCid
            hfresh]
          exact hin
        · exact hin
        · exact hin

/-- Closed witness for C10: a failing validation still leaves the
non-multiuse invitation entry removed, and a multiuse entry in place. -/
theorem c10_request_pops_invitation_witness :
    Protocols.regGet
      (Protocols.legacy_request [("inviteKey", 7)]
        ⟨7, "inviteKey", false, .invite_sent⟩
        (.error .badSignature) "relKey" 8).fst "inviteKey" = none
    ∧ Protocols.regGet
      (Protocols.oob_request [("inviteKey", 7)]
        ⟨7, "inviteKey", true, .invite_sent⟩
        (.error .badSignature) "relKey" 8).fst "inviteKey" = some 7 :=
  ⟨((c10_request_pops_invitation [("inviteKey", 7)]
      ⟨7, "inviteKey", false, .invite_sent⟩ (.error .badSignature)
      "relKey" 8 (by rfl) (by simp) (by decide)).1 rfl).1,
    ((c10_request_pops_invitation [("inviteKey", 7)]
      ⟨7, "inviteKey", true, .invite_sent⟩ (.error .badSignature)
      "relKey" 8 (by rfl) (by simp) (by decide)).2 rfl).2⟩

/-! ## Agent message handling (claim C5)

Embedding of `Agent.connections_for_message` (agent.py lines 130-139) and
`Agent.handle_message` (lines 209-221), together with the HTTP ingress
handler `webserver.handle` (__main__.py lines 86-98) that calls it.
`handle_message` itself contains no exception handling; a session
(`conn.session(response.append)` / `session.handle`, aries_staticagent)
unpacks and dispatches, appending any replies the handler sends on the
return route and propagating any exception the handler raises — the
ingress handler's `try/except` with `LOGGER.exception("Failed to handle
message")` is where they are caught and logged.  A session is modelled by
its observable outcome: the replies appended and the exception raised, if
any. -/

namespace AgentCore

/-- Errors escaping `handle_message`: an envelope-parsing error, the
`ConnectionNotFound` raised by `connections_for_message`, or an exception
raised by a message handler (abstracted by an id). -/
inductive AgentErr where
  | envelope (e : PyErr)
  | connectionNotFound
  | handlerError (n : Nat)
deriving DecidableEq, Repr

/-- `[self.connections[recip] for recip in recipients if recip in
self.connections]`: keep registry order-of-recipients matches.  Recipient
kids in real envelopes are strings; non-string kids are never registry
keys and are skipped. -/
def matchingConnections (reg : Protocols.Registry) : List Json → List Nat
  | [] => []
  | .str s :: rest =>
    (match Protocols.regGet reg s with
      | some cid => cid :: matchingConnections reg rest
      | none => matchingConnections reg rest)
  | _ :: rest => matchingConnections reg rest

/-- Embedding of `Agent.connections_for_message`: extract the recipient
kids and look them up; `ConnectionNotFound` when none match. -/
def connections_for_message (reg : Protocols.Registry) (packed : String) :
    Except AgentErr (List Nat) :=
  match recipients_from_packed_message packed with
  | .error e => .error (.envelope e)
  | .ok kids =>
    match matchingConnections reg kids with
    | [] => .error .connectionNotFound
    | c :: cs => .ok (c :: cs)

/-- The observable outcome of handling the message on one connection's
session: the replies appended via the `response.append` callback and the
exception the dispatched handler raised, if any. -/
structure SessionOutcome where
  appended : List (List Nat)
  raised : Option Nat

/-- Run the sessions in order, accumulating appended replies; the first
handler exception propagates. -/
def runSessions (outcome : Nat → SessionOutcome) :
    List Nat → List (List Nat) → Except AgentErr (List (List Nat))
  | [], acc => .ok acc
  | c :: cs, acc =>
    match (outcome c).raised with
    | some e => .error (.handlerError e)
    | none => runSessions outcome cs (acc ++ (outcome c).appended)

/-- Embedding of `Agent.handle_message`: handle the message on every
matching connection, then return `response.pop()` (the last collected
reply) if any, else `None`.  No `try`/`except` appears in the source. -/
def handle_message (reg : Protocols.Registry)
    (outcome : Nat → SessionOutcome) (packed : String) :
    Except AgentErr (Option (List Nat)) :=
  match connections_for_message reg packed with
  | .error e => .error e
  | .ok conns =>
    match runSessions outcome conns [] with
    | .error e => .error e
    | .ok resp => .ok resp.getLast?

/-- The HTTP ingress response: a 200 with the packed reply, or a 202
(`logged` when an exception was caught and logged). -/
inductive IngressResponse where
  | body (r : List Nat)
  | accepted (logged : Bool)
deriving DecidableEq, Repr

/-- Embedding of `webserver.handle` (__main__.py): return the reply when
`handle_message` produced one, otherwise 202; any exception is caught,
logged, and also answered with 202. -/
def webserver_handle (reg : Protocols.Registry)
    (outcome : Nat → SessionOutcome) (packed : String) : IngressResponse :=
  match handle_message reg outcome packed with
  | .ok (some r) => .body r
  | .ok none => .accepted false
  | .error _ => .accepted true

theorem runSessions_clean (outcome : Nat → SessionOutcome) :
    ∀ conns acc, (∀ c ∈ conns, (outcome c).raised = none) →
      runSessions outcome conns acc
        = .ok (acc ++ conns.flatMap fun c => (outcome c).appended) := by
  intro conns
  induction conns with
  | nil => intro acc _; simp [runSessions]
  | cons c cs ih =>
    intro acc hclean
    have hc : (outcome c).raised = none := hclean c (by simp)
    rw [runSessions, hc]
    rw [ih _ (fun d hd => hclean d (by simp [hd]))]
    simp

theorem runSessions_raise (outcome : Nat → SessionOutcome) :
    ∀ pre c post acc e, (∀ d ∈ pre, (outcome d).raised = none) →
      (outcome c).raised = some e →
      runSessions outcome (pre ++ c :: post) acc
        = .error (.handlerError e) := by
  intro pre
  induction pre with
  | nil =>
    intro c post acc e _ hc
    rw [List.nil_append, runSessions, hc]
  | cons d ds ih =>
    intro c post acc e hclean hc
    have hd : (outcome d).raised = none := hclean d (by simp)
    rw [List.cons_append, runSessions, hd]
    exact ih c post _ e (fun x hx => hclean x (by simp [hx])) hc

end AgentCore

/-- C5 counterexample: one registered connection matches the packed
message and its handler raises; `handle_message` propagates the exception
to its caller (the claim says it never does).  The ingress handler is
where it is caught and logged, answering 202. -/
theorem c5_handle_message_counterexample :
    AgentCore.handle_message [("K", 0)]
        (fun _ => ⟨[], some 3⟩)
        "\x7b\"protected\": \"eyJyZWNpcGllbnRzIjogW3siaGVhZGVyIjogeyJraWQiOiAiSyJ9fV19\"\x7d"
      = .error (.handlerError 3)
    ∧ AgentCore.webserver_handle [("K", 0)]
        (fun _ => ⟨[], some 3⟩)
        "\x7b\"protected\": \"eyJyZWNpcGllbnRzIjogW3siaGVhZGVyIjogeyJraWQiOiAiSyJ9fV19\"\x7d"
      = .accepted true := ⟨rfl, rfl⟩

/-- C5 (amended): `handle_message` processes each connection whose local
verkey matches a recipient kid, in order; when no session raises it
returns the last collected reply (or `None` when none); an exception
raised by a message handler — or by recipient extraction or the
`ConnectionNotFound` check — propagates out of `handle_message`, and the
HTTP ingress handler catches and logs it, responding 202.  At most one
reply is ever returned. -/
theorem c5_handle_message_behavior (reg : Protocols.Registry)
    (outcome : Nat → AgentCore.SessionOutcome) (packed : String) :
    (∀ e, AgentCore.connections_for_message reg packed = .error e →
      AgentCore.handle_message reg outcome packed = .error e)
    ∧ (∀ conns, AgentCore.connections_for_message reg packed = .ok conns →
      (∀ c ∈ conns, (outcome c).raised = none) →
      AgentCore.handle_message reg outcome packed
        = .ok ((conns.flatMap fun c => (outcome c).appended).getLast?))
    ∧ (∀ conns pre c post e,
      AgentCore.connections_for_message reg packed = .ok conns →
      conns = pre ++ c :: post →
      (∀ d ∈ pre, (outcome d).raised = none) →
      (outcome c).raised = some e →
      AgentCore.handle_message reg outcome packed
        = .error (.handlerError e))
    ∧ (∀ e, AgentCore.handle_message reg outcome packed = .error e →
      AgentCore.webserver_handle reg outcome packed = .accepted true)
    ∧ (AgentCore.handle_message reg outcome packed = .ok none →
      AgentCore.webserver_handle reg outcome packed = .accepted false)
    ∧ (∀ r, AgentCore.handle_message reg outcome packed = .ok (some r) →
      AgentCore.webserver_handle reg outcome packed = .body r) := by
  refine ⟨?_, ?_, ?_, ?_, ?_, ?_⟩
  · intro e he
    rw [AgentCore.handle_message, he]
  · intro conns hc hclean
    simp only [AgentCore.handle_message, hc,
      AgentCore.runSessions_clean outcome conns [] hclean,
      List.nil_append]
  · intro conns pre c post e hc hsplit hclean hraise
    simp only [AgentCore.handle_message, hc, hsplit,
      AgentCore.runSessions_raise outcome pre c post [] e hclean hraise]
  · intro e he
    rw [AgentCore.webserver_handle, he]
  · intro he
    rw [AgentCore.webserver_handle, he]
  · intro r hr
    rw [AgentCore.webserver_handle, hr]

/-- Closed witness for C5's amended theorem: two matching connections,
the replies collected in order and the last one returned. -/
theorem c5_handle_message_behavior_witness :
    AgentCore.handle_message [("K", 0), ("K2", 1)]
        (fun c => if c = 0 then ⟨[[1]], none⟩ else ⟨[[2]], none⟩)
        "\x7b\"protected\": \"eyJyZWNpcGllbnRzIjogW3siaGVhZGVyIjogeyJraWQiOiAiSyJ9fSwgeyJoZWFkZXIiOiB7ImtpZCI6ICJLMiJ9fV19\"\x7d"
      = .ok (some [2])
    ∧ AgentCore.webserver_handle [("K", 0), ("K2", 1)]
        (fun c => if c = 0 then ⟨[[1]], none⟩ else ⟨[[2]], none⟩)
        "\x7b\"protected\": \"eyJyZWNpcGllbnRzIjogW3siaGVhZGVyIjogeyJraWQiOiAiSyJ9fSwgeyJoZWFkZXIiOiB7ImtpZCI6ICJLMiJ9fV19\"\x7d"
      = .body [2] := by
  constructor
  · have h := (c5_handle_message_behavior [("K", 0), ("K2", 1)]
      (fun c => if c = 0 then ⟨[[1]], none⟩ else ⟨[[2]], none⟩)
      "\x7b\"protected\": \"eyJyZWNpcGllbnRzIjogW3siaGVhZGVyIjogeyJraWQiOiAiSyJ9fSwgeyJoZWFkZXIiOiB7ImtpZCI6ICJLMiJ9fV19\"\x7d").2.1
      [0, 1] rfl (by decide)
    simpa using h
  · have h := (c5_handle_message_behavior [("K", 0), ("K2", 1)]
      (fun c => if c = 0 then ⟨[[1]], none⟩ else ⟨[[2]], none⟩)
      "\x7b\"protected\": \"eyJyZWNpcGllbnRzIjogW3siaGVhZGVyIjogeyJraWQiOiAiSyJ9fSwgeyJoZWFkZXIiOiB7ImtpZCI6ICJLMiJ9fV19\"\x7d").2.2.2.2.2
      [2] (by
        have h2 := (c5_handle_message_behavior [("K", 0), ("K2", 1)]
          (fun c => if c = 0 then ⟨[[1]], none⟩ else ⟨[[2]], none⟩)
          "\x7b\"protected\": \"eyJyZWNpcGllbnRzIjogW3siaGVhZGVyIjogeyJraWQiOiAiSyJ9fSwgeyJoZWFkZXIiOiB7ImtpZCI6ICJLMiJ9fV19\"\x7d").2.1
          [0, 1] rfl (by decide)
        simpa using h2)
    exact h

/-! ## Legacy DID-document normalization (claim C8)

Embedding of `LegacyDocCorrections` from
`proxy_mediator/doc_normalization.py` (lines 76-238).  Documents are
Python dicts, modelled by their entry lists.  Deviations, which only
widen the error domain and are outside every theorem below: iterating a
non-list (`service`, `authentication`, `verificationMethod`,
`recipientKeys`, `routingKeys`) and `_make_qualified` / `in`-checks on
non-dict elements are modelled as `TypeError` (Python would iterate a
string characterwise or a dict by keys); the `==` comparisons between
stored key values are modelled as scalar equality with containers
comparing unequal (in DID documents both sides are strings). -/

namespace DocNorm

/-- Errors escaping the normalization pipeline. -/
inductive NErr where
  | keyError (k : String)
  | typeError
  | valueError (msg : String)
  | b58Error
deriving DecidableEq, Repr

/-- Python `in` on strings: substring test. -/
def pyInStr (needle hay : String) : Bool :=
  hay.data.tails.any (fun t => needle.data.isPrefixOf t)

/-- Python `==` between the scalar JSON values compared by the pipeline
(container comparisons, which never occur in DID documents, are modelled
as unequal). -/
def pyEqJson : Json → Json → Bool
  | .str a, .str b => a == b
  | .num a, .num b => a == b
  | .bool a, .bool b => a == b
  | .null, .null => true
  | _, _ => false

/-- Except-valued map over a list, propagating the first error. -/
def mapME (f : Json → Except NErr Json) : List Json → Except NErr (List Json)
  | [] => .ok []
  | x :: xs => do
    let y ← f x
    let ys ← mapME f xs
    pure (y :: ys)

/-- Except-valued map with an index (`enumerate`). -/
def mapIdxME (f : Nat → Json → Except NErr Json) :
    Nat → List Json → Except NErr (List Json)
  | _, [] => .ok []
  | i, x :: xs => do
    let y ← f i x
    let ys ← mapIdxME f (i + 1) xs
    pure (y :: ys)

/-- `value.get(key, [])` expecting a list. -/
def getDefaultList (entries : List (String × Json)) (k : String) :
    Except NErr (List Json) :=
  match Json.entriesGet entries k with
  | none => .ok []
  | some (.arr l) => .ok l
  | some _ => .error .typeError

/-- Correction 1, `public_key_is_verification_method`: rename `publicKey`
to `verificationMethod` (pop then set). -/
def public_key_is_verification_method (entries : List (String × Json)) :
    List (String × Json) :=
  match Json.entriesGet entries "publicKey" with
  | some pk =>
    Json.entriesSet (Json.entriesPop entries "publicKey")
      "verificationMethod" pk
  | none => entries

/-- One entry of correction 2: a dict with `publicKey` is replaced by that
member, anything else passes through. -/
def authnEntry (a : Json) : Json :=
  match a with
  | .obj aes =>
    match Json.entriesGet aes "publicKey" with
    | some pk => pk
    | none => a
  | _ => a

/-- Correction 2, `authentication_is_list_of_verification_methods_and_refs`. -/
def authentication_to_refs (entries : List (String × Json)) :
    Except NErr (List (String × Json)) :=
  match Json.entriesGet entries "authentication" with
  | none => .ok entries
  | some (.arr items) =>
    .ok (Json.entriesSet entries "authentication" (.arr (items.map authnEntry)))
  | some _ => .error .typeError

/-- `qualified`: prepend `did:sov:` unless already a DID (or DID URL). -/
def qualified (s : String) : String :=
  if CoordinateMediation.pyStartsWith s "did:" then s else "did:sov:" ++ s

/-- `qualified` applied to a JSON value; `.startswith` on a non-string
raises. -/
def qualifyJson : Json → Except NErr Json
  | .str s => .ok (.str (qualified s))
  | _ => .error .typeError

/-- `_make_qualified` on one dict: qualify `id` and `controller` when
present. -/
def make_qualified_entries (es : List (String × Json)) :
    Except NErr (List (String × Json)) := do
  let es1 ← match Json.entriesGet es "id" with
    | none => Except.ok es
    | some idv => (qualifyJson idv).map (fun q => Json.entriesSet es "id" q)
  match Json.entriesGet es1 "controller" with
  | none => Except.ok es1
  | some cv => (qualifyJson cv).map (fun q => Json.entriesSet es1 "controller" q)

/-- `_make_qualified` on a JSON element (verification methods and
services are dicts in DID documents). -/
def make_qualified : Json → Except NErr Json
  | .obj es => (make_qualified_entries es).map Json.obj
  | _ => .error .typeError

/-- One authentication entry of correction 3: dicts are `_make_qualified`,
strings are `qualified`, anything else raises `ValueError`. -/
def qualifyAuthn : Json → Except NErr Json
  | .obj es => (make_qualified_entries es).map Json.obj
  | .str s => .ok (.str (qualified s))
  | _ => .error (.valueError "Unexpected authentication value type")

/-- Correction 3, `fully_qualified_ids_and_controllers`: qualify the
document, its verification methods, services and authentication entries,
then write all three lists back (creating the keys when absent). -/
def fully_qualified_ids_and_controllers (entries : List (String × Json)) :
    Except NErr (List (String × Json)) := do
  let es ← make_qualified_entries entries
  let vmsRaw ← getDefaultList es "verificationMethod"
  let vms ← mapME make_qualified vmsRaw
  let svcsRaw ← getDefaultList es "service"
  let svcs ← mapME make_qualified svcsRaw
  let authsRaw ← getDefaultList es "authentication"
  let auths ← mapME qualifyAuthn authsRaw
  let es1 := Json.entriesSet es "authentication" (.arr auths)
  let es2 := Json.entriesSet es1 "verificationMethod" (.arr vms)
  pure (Json.entriesSet es2 "service" (.arr svcs))

/-- One service of correction 4: rewrite `IndyAgent` services to
`did-communication`, fixing the service id and dropping a null
priority. -/
def service4 (entries : List (String × Json)) (index : Nat) (svc : Json) :
    Except NErr Json :=
  match svc with
  | .obj ses =>
    match Json.entriesGet ses "type" with
    | some (.str "IndyAgent") => do
      let ses1 := Json.entriesSet ses "type" (.str "did-communication")
      let idv ← match Json.entriesGet ses1 "id" with
        | some v => Except.ok v
        | none => Except.error (.keyError "id")
      let idStr ← match idv with
        | .str s => Except.ok s
        | _ => Except.error .typeError
      let ses2 ← if idStr.data.any (fun c => c == ';') then
          match Json.entriesGet entries "id" with
          | some (.str docId) => Except.ok (Json.entriesSet ses1 "id"
              (.str (docId ++ "#didcomm-" ++ toString index)))
          | some _ => Except.error .typeError
          | none => Except.error (.keyError "id")
        else Except.ok ses1
      let idv2 ← match Json.entriesGet ses2 "id" with
        | some v => Except.ok v
        | none => Except.error (.keyError "id")
      let idStr2 ← match idv2 with
        | .str s => Except.ok s
        | _ => Except.error .typeError
      let ses3 := if idStr2.data.any (fun c => c == '#') then ses2
        else Json.entriesSet ses2 "id"
          (.str (idStr2 ++ "#didcomm-" ++ toString index))
      let ses4 := match Json.entriesGet ses3 "priority" with
        | some .null => Json.entriesPop ses3 "priority"
        | _ => ses3
      pure (.obj ses4)
    | _ => .ok svc
  | _ => .error .typeError

/-- Correction 4, `didcomm_services_use_updated_conventions`. -/
def didcomm_services_use_updated_conventions
    (entries : List (String × Json)) : Except NErr (List (String × Json)) :=
  match Json.entriesGet entries "service" with
  | none => .ok entries
  | some (.arr svcs) =>
    (mapIdxME (service4 entries) 0 svcs).map
      (fun l => Json.entriesSet entries "service" (.arr l))
  | some _ => .error .typeError

/-- `vm["publicKeyBase58"]` with its KeyError/TypeError. -/
def vmPk (vm : Json) : Except NErr Json :=
  match vm with
  | .obj ves =>
    match Json.entriesGet ves "publicKeyBase58" with
    | some v => .ok v
    | none => .error (.keyError "publicKeyBase58")
  | _ => .error .typeError

/-- `remove_verification_method`: keep the verification methods whose
`publicKeyBase58` differs from the given key. -/
def remove_verification_method : List Json → Json → Except NErr (List Json)
  | [], _ => .ok []
  | vm :: rest, pk => do
    let pv ← vmPk vm
    let rest2 ← remove_verification_method rest pk
    pure (if pyEqJson pv pk then rest2 else vm :: rest2)

/-- Fold `remove_verification_method` over a service's routing keys. -/
def removeAll : List Json → List Json → Except NErr (List Json)
  | vms, [] => .ok vms
  | vms, k :: ks => do
    let vms1 ← remove_verification_method vms k
    removeAll vms1 ks

/-- The service loop of correction 5. -/
def step5Loop : List Json → List Json → Except NErr (List Json)
  | vms, [] => .ok vms
  | vms, svc :: rest =>
    match svc with
    | .obj ses =>
      match Json.entriesGet ses "routingKeys" with
      | none => step5Loop vms rest
      | some (.arr rks) => do
        let vms1 ← removeAll vms rks
        step5Loop vms1 rest
      | some _ => .error .typeError
    | _ => .error .typeError

/-- Correction 5, `remove_routing_keys_from_verification_method`. -/
def remove_routing_keys_from_verification_method
    (entries : List (String × Json)) : Except NErr (List (String × Json)) := do
  let vms ← getDefaultList entries "verificationMethod"
  let svcs ← getDefaultList entries "service"
  let vms1 ← step5Loop vms svcs
  pure (Json.entriesSet entries "verificationMethod" (.arr vms1))

/-- `recip_base58_to_ref`: replace a recipient key by the id of the first
verification method whose `publicKeyBase58` equals it. -/
def recip_base58_to_ref : List Json → Json → Except NErr Json
  | [], recip => .ok recip
  | vm :: rest, recip =>
    match vm with
    | .obj ves =>
      match Json.entriesGet ves "publicKeyBase58" with
      | some pv =>
        if pyEqJson pv recip then
          match Json.entriesGet ves "id" with
          | some idv => .ok idv
          | none => .error (.keyError "id")
        else recip_base58_to_ref rest recip
      | none => recip_base58_to_ref rest recip
    | _ => .error .typeError

/-- `str.replace` (all non-overlapping occurrences, left to right),
computed with fuel. -/
def replaceAllAux (needle repl : List Char) : Nat → List Char → List Char
  | 0, hay => hay
  | fuel + 1, hay =>
    match hay with
    | [] => []
    | c :: rest =>
      if needle.isPrefixOf hay ∧ needle ≠ [] then
        repl ++ replaceAllAux needle repl fuel (hay.drop needle.length)
      else c :: replaceAllAux needle repl fuel rest

/-- `str.replace` on strings. -/
def replaceAll (needle repl s : String) : String :=
  ⟨replaceAllAux needle.data repl.data s.data.length s.data⟩

/-- `did_key_to_did_key_ref`: append the multikey fragment unless a
fragment is already present. -/
def did_key_to_did_key_ref (s : String) : String :=
  if s.data.any (fun c => c == '#') then s
  else s ++ "#" ++ replaceAll "did:key:" "" s

/-- `DIDKey.from_public_key_b58(key, "ed25519-pub").key_id`. -/
def didkeyFromB58 (k : String) : Except NErr String :=
  match b58decode k with
  | none => .error .b58Error
  | some bytes =>
    .ok ("did:key:" ++ ("z" ++ b58encode (multicodecWrap ed25519PubCode bytes))
      ++ "#" ++ ("z" ++ b58encode (multicodecWrap ed25519PubCode bytes)))

/-- One routing key of correction 6. -/
def routingRef (k : Json) : Except NErr Json :=
  match k with
  | .str ks =>
    if ¬ pyInStr "did:key:" ks then (didkeyFromB58 ks).map Json.str
    else .ok (.str (did_key_to_did_key_ref ks))
  | _ => .error .typeError

/-- One service of correction 6. -/
def service6 (vms : List Json) (svc : Json) : Except NErr Json :=
  match svc with
  | .obj ses => do
    let ses1 ← match Json.entriesGet ses "type" with
      | some (.str "did-communication") => do
        let recips ← match Json.entriesGet ses "recipientKeys" with
          | none => Except.ok []
          | some (.arr l) => Except.ok l
          | some _ => Except.error NErr.typeError
        let recips1 ← mapME (recip_base58_to_ref vms) recips
        Except.ok (Json.entriesSet ses "recipientKeys" (.arr recips1))
      | _ => Except.ok ses
    match Json.entriesGet ses1 "routingKeys" with
    | none => Except.ok (.obj ses1)
    | some (.arr rks) => do
      let rks1 ← mapME routingRef rks
      Except.ok (.obj (Json.entriesSet ses1 "routingKeys" (.arr rks1)))
    | some _ => Except.error NErr.typeError
  | _ => .error .typeError

/-- Correction 6,
`didcomm_services_recip_keys_are_refs_routing_keys_are_did_key_ref`. -/
def didcomm_services_recip_keys_are_refs (entries : List (String × Json)) :
    Except NErr (List (String × Json)) := do
  let vms ← getDefaultList entries "verificationMethod"
  match Json.entriesGet entries "service" with
  | none => pure entries
  | some (.arr svcs) =>
    (mapME (service6 vms) svcs).map
      (fun l => Json.entriesSet entries "service" (.arr l))
  | some _ => Except.error NErr.typeError

/-- `LegacyDocCorrections.apply`: the six corrections in order (the
deep copy makes the pipeline functional). -/
def apply (entries : List (String × Json)) :
    Except NErr (List (String × Json)) := do
  let e1 := public_key_is_verification_method entries
  let e2 ← authentication_to_refs e1
  let e3 ← fully_qualified_ids_and_controllers e2
  let e4 ← didcomm_services_use_updated_conventions e3
  let e5 ← remove_routing_keys_from_verification_method e4
  didcomm_services_recip_keys_are_refs e5

/-- Qualified reference: a string starting with `did:`. -/
def qualifiedStr (j : Json) : Bool :=
  match j with
  | .str s => CoordinateMediation.pyStartsWith s "did:"
  | _ => false

/-- The `id`/`controller` member, when present, is a qualified string. -/
def qualKey (es : List (String × Json)) (k : String) : Bool :=
  match Json.entriesGet es k with
  | none => true
  | some v => qualifiedStr v

/-- A normalized authentication entry: a qualified reference string, or a
verification method dict without `publicKey` whose id/controller are
qualified. -/
def authEntryOk (a : Json) : Bool :=
  match a with
  | .str s => CoordinateMediation.pyStartsWith s "did:"
  | .obj aes => !(Json.entriesHas aes "publicKey") && qualKey aes "id"
      && qualKey aes "controller"
  | _ => false

/-- A verification method does not collide with the given recipient key
(`recip_base58_to_ref` finds no match); a method without
`publicKeyBase58` is skipped by the `in` check. -/
def recipVmOk (r : Json) (vm : Json) : Bool :=
  match vm with
  | .obj ves =>
    match Json.entriesGet ves "publicKeyBase58" with
    | some pv => !pyEqJson pv r
    | none => true
  | _ => false

/-- A verification method survives removal against the given routing key:
it is a dict carrying `publicKeyBase58` (else `KeyError`) and the value
differs. -/
def rkVmOk (k : Json) (vm : Json) : Bool :=
  match vm with
  | .obj ves =>
    match Json.entriesGet ves "publicKeyBase58" with
    | some pv => !pyEqJson pv k
    | none => false
  | _ => false

/-- A normalized routing key: a `did:key:` reference that already carries
a fragment and collides with no verification method. -/
def rkOk (vms : List Json) (k : Json) : Bool :=
  match k with
  | .str ks => pyInStr "did:key:" ks && ks.data.any (fun c => c == '#')
      && vms.all (rkVmOk k)
  | _ => false

/-- A normalized service: a dict with qualified id/controller, not
`IndyAgent`; a `did-communication` service carries a `recipientKeys`
array none of whose entries matches a verification method key; a
`routingKeys` member, when present, is an array of normalized routing
keys. -/
def svcOk (vms : List Json) (s : Json) : Bool :=
  match s with
  | .obj ses =>
    qualKey ses "id" && qualKey ses "controller"
    && (match Json.entriesGet ses "type" with
        | some (.str "IndyAgent") => false
        | _ => true)
    && (match Json.entriesGet ses "type" with
        | some (.str "did-communication") =>
          (match Json.entriesGet ses "recipientKeys" with
           | some (.arr recips) => recips.all (fun r => vms.all (recipVmOk r))
           | _ => false)
        | _ => true)
    && (match Json.entriesGet ses "routingKeys" with
        | none => true
        | some (.arr rks) => rks.all (rkOk vms)
        | some _ => false)
  | _ => false

/-- The normal form of `LegacyDocCorrections.apply` output on which the
pipeline is the identity: no `publicKey`, qualified document
id/controller, and present `authentication` / `verificationMethod` /
`service` arrays of normalized entries (the pipeline itself creates all
three keys). -/
def normalized (entries : List (String × Json)) : Bool :=
  !(Json.entriesHas entries "publicKey")
  && qualKey entries "id" && qualKey entries "controller"
  && (match Json.entriesGet entries "authentication" with
      | some (.arr auths) => auths.all authEntryOk
      | _ => false)
  && (match Json.entriesGet entries "verificationMethod",
        Json.entriesGet entries "service" with
      | some (.arr vms), some (.arr svcs) =>
        vms.all (fun v =>
          match v with
          | .obj ves => qualKey ves "id" && qualKey ves "controller"
          | _ => false)
        && svcs.all (svcOk vms)
      | _, _ => false)

theorem entriesGet_none_of_not_has (es : List (String × Json)) (k : String)
    (h : Json.entriesHas es k = false) : Json.entriesGet es k = none := by
  induction es with
  | nil => rfl
  | cons e rest ih =>
    simp only [Json.entriesHas, List.any_cons, Bool.or_eq_false_iff] at h
    rw [Json.entriesGet, if_neg (by simp [h.1])]
    exact ih (by simp only [Json.entriesHas]; exact h.2)

theorem entriesSet_self (es : List (String × Json)) (k : String) (v : Json)
    (h : Json.entriesGet es k = some v) : Json.entriesSet es k v = es := by
  induction es with
  | nil => simp [Json.entriesGet] at h
  | cons e rest ih =>
    obtain ⟨a, b⟩ := e
    by_cases hb : a = k
    · rw [Json.entriesGet] at h
      rw [if_pos (by simpa using hb)] at h
      simp only [Option.some.injEq] at h
      rw [Json.entriesSet]
      rw [if_pos (by simpa using hb)]
      rw [← h, hb]
    · rw [Json.entriesGet] at h
      rw [if_neg (by simpa using hb)] at h
      rw [Json.entriesSet]
      rw [if_neg (by simpa using hb)]
      rw [ih h]

theorem mapME_ok_of (f : Json → Except NErr Json) (l : List Json)
    (h : ∀ x ∈ l, f x = .ok x) : mapME f l = .ok l := by
  induction l with
  | nil => rfl
  | cons x xs ih =>
    rw [mapME, h x (by simp), except_bind_ok,
      ih (fun y hy => h y (by simp [hy])), except_bind_ok]
    rfl

theorem mapIdxME_ok_of (f : Nat → Json → Except NErr Json) (l : List Json)
    (h : ∀ x ∈ l, ∀ i, f i x = .ok x) : ∀ i, mapIdxME f i l = .ok l := by
  induction l with
  | nil => intro i; rfl
  | cons x xs ih =>
    intro i
    rw [mapIdxME, h x (by simp) i, except_bind_ok,
      ih (fun y hy j => h y (by simp [hy]) j) (i + 1), except_bind_ok]
    rfl

theorem qualifyJson_self (v : Json) (h : qualifiedStr v = true) :
    qualifyJson v = .ok v := by
  rcases v with _ | _ | _ | s | _ | _ <;> simp [qualifiedStr] at h
  simp [qualifyJson, qualified, h]

theorem except_map_ok {e a b : Type} (f : a → b) (x : a) :
    Except.map f (Except.ok x : Except e a) = Except.ok (f x) := rfl

theorem make_qualified_entries_self (es : List (String × Json))
    (h1 : qualKey es "id" = true) (h2 : qualKey es "controller" = true) :
    make_qualified_entries es = .ok es := by
  rcases hid : Json.entriesGet es "id" with _ | v
  · rcases hc : Json.entriesGet es "controller" with _ | w
    · simp [make_qualified_entries, hid, hc, except_bind_ok, except_map_ok]
    · simp only [qualKey, hc] at h2
      simp [make_qualified_entries, hid, hc, qualifyJson_self w h2,
        except_bind_ok, except_map_ok, entriesSet_self es "controller" w hc]
  · simp only [qualKey, hid] at h1
    have hset := entriesSet_self es "id" v hid
    rcases hc : Json.entriesGet es "controller" with _ | w
    · simp [make_qualified_entries, hid, qualifyJson_self v h1, hset, hc,
        except_bind_ok, except_map_ok]
    · simp only [qualKey, hc] at h2
      simp [make_qualified_entries, hid, qualifyJson_self v h1, hset, hc,
        qualifyJson_self w h2, except_bind_ok, except_map_ok,
        entriesSet_self es "controller" w hc]

theorem make_qualified_self (v : Json)
    (h : match v with
      | .obj ves => qualKey ves "id" && qualKey ves "controller"
      | _ => false) :
    make_qualified v = .ok v := by
  rcases v with _ | _ | _ | _ | _ | ves <;> simp at h
  rw [make_qualified, make_qualified_entries_self ves h.1 h.2]
  rfl

theorem recip_base58_to_ref_self (vms : List Json) (r : Json)
    (h : ∀ vm ∈ vms, recipVmOk r vm = true) :
    recip_base58_to_ref vms r = .ok r := by
  induction vms with
  | nil => rfl
  | cons vm rest ih =>
    have hvm := h vm (by simp)
    have hrest := ih (fun x hx => h x (by simp [hx]))
    rcases vm with _ | _ | _ | _ | _ | ves <;> simp [recipVmOk] at hvm
    rcases hpv : Json.entriesGet ves "publicKeyBase58" with _ | pv
    · simpa [recip_base58_to_ref, hpv] using hrest
    · have hne : pyEqJson pv r = false := by
        rw [hpv] at hvm; simpa using hvm
      simpa [recip_base58_to_ref, hpv, hne] using hrest

theorem remove_verification_method_self (vms : List Json) (k : Json)
    (h : ∀ vm ∈ vms, rkVmOk k vm = true) :
    remove_verification_method vms k = .ok vms := by
  induction vms with
  | nil => rfl
  | cons vm rest ih =>
    have hvm := h vm (by simp)
    have hrest := ih (fun x hx => h x (by simp [hx]))
    rcases vm with _ | _ | _ | _ | _ | ves <;> simp [rkVmOk] at hvm
    rcases hpv : Json.entriesGet ves "publicKeyBase58" with _ | pv
    · rw [hpv] at hvm; simp at hvm
    · have hne : pyEqJson pv k = false := by
        rw [hpv] at hvm; simpa using hvm
      simp only [remove_verification_method, vmPk, hpv, except_bind_ok]
      rw [hrest, except_bind_ok]
      simp only [hne, Bool.false_eq_true, if_false]
      rfl

theorem removeAll_self (vms : List Json) (rks : List Json)
    (h : ∀ k ∈ rks, ∀ vm ∈ vms, rkVmOk k vm = true) :
    removeAll vms rks = .ok vms := by
  induction rks with
  | nil => rfl
  | cons k ks ih =>
    rw [removeAll, remove_verification_method_self vms k (h k (by simp)),
      except_bind_ok]
    exact ih (fun x hx vm hvm => h x (by simp [hx]) vm hvm)

theorem step5Loop_self (vms : List Json) (svcs : List Json)
    (h : ∀ svc ∈ svcs, svcOk vms svc = true) :
    step5Loop vms svcs = .ok vms := by
  induction svcs with
  | nil => rfl
  | cons svc rest ih =>
    have hs := h svc (by simp)
    have hrest := ih (fun x hx => h x (by simp [hx]))
    rcases svc with _ | _ | _ | _ | _ | ses <;> simp [svcOk] at hs
    rcases hrk : Json.entriesGet ses "routingKeys" with _ | rkv
    · simpa [step5Loop, hrk] using hrest
    · rw [hrk] at hs
      rcases rkv with _ | _ | _ | _ | rks | _
      case null => simp at hs
      case bool => simp at hs
      case num => simp at hs
      case str => simp at hs
      case obj => simp at hs
      have hall2 : rks.all (rkOk vms) = true := by
        simp only [Bool.and_eq_true] at hs
        simpa using hs.2
      have hall : ∀ k ∈ rks, ∀ vm ∈ vms, rkVmOk k vm = true := by
        intro k hk vm hvm
        have hko := List.all_eq_true.mp hall2 k hk
        rcases k with _ | _ | _ | ks | _ | _
        all_goals simp only [rkOk] at hko
        case str =>
          simp only [Bool.and_eq_true] at hko
          exact List.all_eq_true.mp hko.2 vm hvm
        all_goals exact Bool.noConfusion hko
      simp only [step5Loop, hrk]
      rw [removeAll_self vms rks hall, except_bind_ok]
      exact hrest

theorem qualified_self (s : String)
    (h : CoordinateMediation.pyStartsWith s "did:" = true) :
    qualified s = s := by
  rw [qualified, if_pos h]

theorem authnEntry_self (a : Json) (h : authEntryOk a = true) :
    authnEntry a = a := by
  rcases a with _ | _ | _ | _ | _ | aes
  case obj =>
    simp only [authEntryOk, Bool.and_eq_true] at h
    have hget : Json.entriesGet aes "publicKey" = none :=
      entriesGet_none_of_not_has aes "publicKey" (by simpa using h.1.1)
    simp [authnEntry, hget]
  all_goals rfl

theorem map_authnEntry_self (items : List Json)
    (h : ∀ a ∈ items, authEntryOk a = true) :
    items.map authnEntry = items := by
  induction items with
  | nil => rfl
  | cons a rest ih =>
    rw [List.map_cons, authnEntry_self a (h a (by simp)),
      ih (fun x hx => h x (by simp [hx]))]

theorem authentication_to_refs_self (entries : List (String × Json))
    (auths : List Json)
    (hga : Json.entriesGet entries "authentication" = some (.arr auths))
    (h : ∀ a ∈ auths, authEntryOk a = true) :
    authentication_to_refs entries = .ok entries := by
  simp only [authentication_to_refs, hga, map_authnEntry_self auths h,
    entriesSet_self entries "authentication" (.arr auths) hga]

theorem qualifyAuthn_self (a : Json) (h : authEntryOk a = true) :
    qualifyAuthn a = .ok a := by
  rcases a with _ | _ | _ | s | _ | aes
  case str =>
    simp only [authEntryOk] at h
    simp [qualifyAuthn, qualified_self s h]
  case obj =>
    simp only [authEntryOk, Bool.and_eq_true] at h
    simp [qualifyAuthn, make_qualified_entries_self aes h.1.2 h.2,
      except_map_ok]
  all_goals exact Bool.noConfusion h

theorem fully_qualified_self (entries : List (String × Json))
    (vms svcs auths : List Json)
    (h1 : qualKey entries "id" = true)
    (h2 : qualKey entries "controller" = true)
    (hgv : Json.entriesGet entries "verificationMethod" = some (.arr vms))
    (hgs : Json.entriesGet entries "service" = some (.arr svcs))
    (hga : Json.entriesGet entries "authentication" = some (.arr auths))
    (hv : ∀ v ∈ vms, make_qualified v = .ok v)
    (hs : ∀ v ∈ svcs, make_qualified v = .ok v)
    (ha : ∀ a ∈ auths, qualifyAuthn a = .ok a) :
    fully_qualified_ids_and_controllers entries = .ok entries := by
  simp only [fully_qualified_ids_and_controllers,
    make_qualified_entries_self entries h1 h2, except_bind_ok,
    getDefaultList, hgv, hgs, hga,
    mapME_ok_of make_qualified vms hv,
    mapME_ok_of make_qualified svcs hs,
    mapME_ok_of qualifyAuthn auths ha,
    entriesSet_self entries "authentication" (.arr auths) hga,
    entriesSet_self entries "verificationMethod" (.arr vms) hgv,
    entriesSet_self entries "service" (.arr svcs) hgs]
  rfl

theorem service4_self (entries : List (String × Json)) (i : Nat)
    (ses : List (String × Json))
    (hty : Json.entriesGet ses "type" ≠ some (.str "IndyAgent")) :
    service4 entries i (.obj ses) = .ok (.obj ses) := by
  simp only [service4]

theorem conventions_self (entries : List (String × Json)) (svcs : List Json)
    (hgs : Json.entriesGet entries "service" = some (.arr svcs))
    (h : ∀ svc ∈ svcs, ∀ i, service4 entries i svc = .ok svc) :
    didcomm_services_use_updated_conventions entries = .ok entries := by
  simp only [didcomm_services_use_updated_conventions, hgs,
    mapIdxME_ok_of (service4 entries) svcs h 0, except_map_ok,
    entriesSet_self entries "service" (.arr svcs) hgs]

theorem remove_routing_self (entries : List (String × Json))
    (vms svcs : List Json)
    (hgv : Json.entriesGet entries "verificationMethod" = some (.arr vms))
    (hgs : Json.entriesGet entries "service" = some (.arr svcs))
    (h : ∀ svc ∈ svcs, svcOk vms svc = true) :
    remove_routing_keys_from_verification_method entries = .ok entries := by
  simp only [remove_routing_keys_from_verification_method, getDefaultList,
    hgv, hgs, except_bind_ok, step5Loop_self vms svcs h,
    entriesSet_self entries "verificationMethod" (.arr vms) hgv]
  rfl

theorem svcOk_elim (vms : List Json) (ses : List (String × Json))
    (h : svcOk vms (.obj ses) = true) :
    (qualKey ses "id" = true ∧ qualKey ses "controller" = true)
    ∧ Json.entriesGet ses "type" ≠ some (.str "IndyAgent")
    ∧ (Json.entriesGet ses "type" = some (.str "did-communication") →
        ∃ recips, Json.entriesGet ses "recipientKeys" = some (.arr recips)
          ∧ ∀ r ∈ recips, ∀ vm ∈ vms, recipVmOk r vm = true)
    ∧ (Json.entriesGet ses "routingKeys" = none
        ∨ ∃ rks, Json.entriesGet ses "routingKeys" = some (.arr rks)
          ∧ ∀ k ∈ rks, rkOk vms k = true) := by
  simp only [svcOk, Bool.and_eq_true] at h
  obtain ⟨⟨⟨⟨hqi, hqc⟩, hni⟩, hdc⟩, hrk⟩ := h
  refine ⟨⟨hqi, hqc⟩, ?_, ?_, ?_⟩
  · intro he
    rw [he] at hni
    exact Bool.noConfusion hni
  · intro he
    rw [he] at hdc
    rcases hgr : Json.entriesGet ses "recipientKeys" with _ | rv
    · rw [hgr] at hdc
      exact Bool.noConfusion hdc
    · rw [hgr] at hdc
      rcases rv with _ | _ | _ | _ | recips | _
      case arr =>
        refine ⟨recips, rfl, fun r hr vm hvm => ?_⟩
        have h3 : recips.all (fun r => vms.all (recipVmOk r)) = true := hdc
        exact List.all_eq_true.mp (List.all_eq_true.mp h3 r hr) vm hvm
      all_goals exact Bool.noConfusion hdc
  · rcases hgr : Json.entriesGet ses "routingKeys" with _ | rv
    · exact Or.inl rfl
    · rw [hgr] at hrk
      rcases rv with _ | _ | _ | _ | rks | _
      case arr =>
        refine Or.inr ⟨rks, rfl, fun k hk => ?_⟩
        have h3 : rks.all (rkOk vms) = true := hrk
        exact List.all_eq_true.mp h3 k hk
      all_goals exact Bool.noConfusion hrk

theorem routingRef_self (vms : List Json) (k : Json)
    (h : rkOk vms k = true) : routingRef k = .ok k := by
  rcases k with _ | _ | _ | ks | _ | _
  case str =>
    simp only [rkOk, Bool.and_eq_true] at h
    simp [routingRef, h.1.1, did_key_to_did_key_ref, h.1.2]
  all_goals exact Bool.noConfusion h

theorem service6_self (vms : List Json) (ses : List (String × Json))
    (h : svcOk vms (.obj ses) = true) :
    service6 vms (.obj ses) = .ok (.obj ses) := by
  obtain ⟨⟨hqi, hqc⟩, hni, hdc, hrk⟩ := svcOk_elim vms ses h
  simp only [service6]
  split
  next heq =>
    obtain ⟨recips, hgr, hrec⟩ := hdc heq
    have hm : mapME (recip_base58_to_ref vms) recips = .ok recips :=
      mapME_ok_of _ recips
        (fun r hr => recip_base58_to_ref_self vms r (hrec r hr))
    simp only [hgr, except_bind_ok, hm,
      entriesSet_self ses "recipientKeys" (.arr recips) hgr]
    rcases hrk with hnone | ⟨rks, hgrk, hks⟩
    · simp [hnone]
    · have hm2 : mapME routingRef rks = .ok rks :=
        mapME_ok_of _ rks (fun k hk => routingRef_self vms k (hks k hk))
      simp [hgrk, hm2, except_bind_ok,
        entriesSet_self ses "routingKeys" (.arr rks) hgrk]
  next =>
    simp only [except_bind_ok]
    rcases hrk with hnone | ⟨rks, hgrk, hks⟩
    · simp [hnone]
    · have hm2 : mapME routingRef rks = .ok rks :=
        mapME_ok_of _ rks (fun k hk => routingRef_self vms k (hks k hk))
      simp [hgrk, hm2, except_bind_ok,
        entriesSet_self ses "routingKeys" (.arr rks) hgrk]

theorem recip_refs_self (entries : List (String × Json))
    (vms svcs : List Json)
    (hgv : Json.entriesGet entries "verificationMethod" = some (.arr vms))
    (hgs : Json.entriesGet entries "service" = some (.arr svcs))
    (h : ∀ svc ∈ svcs, svcOk vms svc = true) :
    didcomm_services_recip_keys_are_refs entries = .ok entries := by
  have hm : mapME (service6 vms) svcs = .ok svcs := by
    refine mapME_ok_of _ svcs (fun sv hs => ?_)
    have hok := h sv hs
    rcases sv with _ | _ | _ | _ | _ | ses
    case obj => exact service6_self vms ses hok
    all_goals exact Bool.noConfusion hok
  simp only [didcomm_services_recip_keys_are_refs, getDefaultList, hgv, hgs,
    except_bind_ok, hm, except_map_ok,
    entriesSet_self entries "service" (.arr svcs) hgs]

end DocNorm

/-- C8 counterexample: normalization is not idempotent.  On the document
`{"authentication": [{"publicKey": {"publicKey": "y"}}]}` the first
application extracts the inner dict (leaving an authentication entry that
still contains a `publicKey` member), while the second application
extracts again and qualifies, producing `["did:sov:y"]`.  Both
applications are defined, and the two results differ in content (their
`authentication` values are a one-dict list versus a one-string list, so
they are unequal as Python dicts). -/
theorem c8_normalize_not_idempotent :
    DocNorm.apply
        [("authentication", .arr [.obj [("publicKey",
          .obj [("publicKey", .str "y")])]])]
      = .ok [("authentication", .arr [.obj [("publicKey", .str "y")]]),
          ("verificationMethod", .arr []), ("service", .arr [])]
    ∧ DocNorm.apply
        [("authentication", .arr [.obj [("publicKey", .str "y")]]),
          ("verificationMethod", .arr []), ("service", .arr [])]
      = .ok [("authentication", .arr [.str "did:sov:y"]),
          ("verificationMethod", .arr []), ("service", .arr [])]
    ∧ (Json.arr [.obj [("publicKey", .str "y")]]
        ≠ Json.arr [.str "did:sov:y"]) := by
  refine ⟨rfl, rfl, ?_⟩
  intro h
  injection h with h1
  injection h1 with h2 h3
  exact Json.noConfusion h2

/-- C8 (amended): `LegacyDocCorrections.apply` is the identity on documents
in normal form: no `publicKey` member, qualified document `id` and
`controller`, an `authentication` array whose entries are qualified
references or qualified `publicKey`-free verification methods, a
`verificationMethod` array of dicts with qualified ids and controllers,
and a `service` array of non-IndyAgent services with qualified ids whose
`did-communication` members carry recipient keys matching no verification
method key and whose routing keys are `did:key:` references with
fragments matching no verification method key.  Every document the
pipeline outputs without error and that satisfies this predicate is a
fixed point, so on such outputs normalization is idempotent. -/
theorem c8_normalize_idempotent (entries : List (String × Json))
    (h : DocNorm.normalized entries = true) :
    DocNorm.apply entries = .ok entries := by
  simp only [DocNorm.normalized, Bool.and_eq_true] at h
  obtain ⟨⟨⟨⟨hpk, hqid⟩, hqctl⟩, hauth⟩, hvs⟩ := h
  have hpget : Json.entriesGet entries "publicKey" = none :=
    DocNorm.entriesGet_none_of_not_has entries "publicKey" (by simpa using hpk)
  rcases hga : Json.entriesGet entries "authentication" with _ | av
  case none => rw [hga] at hauth; exact Bool.noConfusion hauth
  rcases av with _ | _ | _ | _ | auths | _
  case arr =>
    have hauths : auths.all DocNorm.authEntryOk = true := by
      rw [hga] at hauth; exact hauth
    rcases hgv : Json.entriesGet entries "verificationMethod" with _ | vv
    case none => rw [hgv] at hvs; exact Bool.noConfusion hvs
    rcases vv with _ | _ | _ | _ | vms | _
    case arr =>
      rcases hgs : Json.entriesGet entries "service" with _ | sv
      case none => rw [hgv, hgs] at hvs; exact Bool.noConfusion hvs
      rcases sv with _ | _ | _ | _ | svcs | _
      case arr =>
        rw [hgv, hgs] at hvs
        simp only [Bool.and_eq_true] at hvs
        obtain ⟨hvm_all, hsvc_all⟩ := hvs
        have hsvcok : ∀ sj ∈ svcs, DocNorm.svcOk vms sj = true :=
          fun sj hs => List.all_eq_true.mp hsvc_all sj hs
        have hauthok : ∀ a ∈ auths, DocNorm.authEntryOk a = true :=
          fun a ha2 => List.all_eq_true.mp hauths a ha2
        have hv : ∀ v ∈ vms, DocNorm.make_qualified v = .ok v := by
          intro v hvmem
          have hb := List.all_eq_true.mp hvm_all v hvmem
          rcases v with _ | _ | _ | _ | _ | ves
          case obj => exact DocNorm.make_qualified_self (.obj ves) hb
          all_goals exact Bool.noConfusion hb
        have hsq : ∀ sj ∈ svcs, DocNorm.make_qualified sj = .ok sj := by
          intro sj hsm
          have hok := hsvcok sj hsm
          rcases sj with _ | _ | _ | _ | _ | ses
          case obj =>
            obtain ⟨⟨hqi2, hqc2⟩, _, _, _⟩ := DocNorm.svcOk_elim vms ses hok
            exact DocNorm.make_qualified_self (.obj ses) (by simp [hqi2, hqc2])
          all_goals exact Bool.noConfusion hok
        have ha : ∀ a ∈ auths, DocNorm.qualifyAuthn a = .ok a :=
          fun a ha2 => DocNorm.qualifyAuthn_self a (hauthok a ha2)
        have h4s : ∀ sj ∈ svcs, ∀ i, DocNorm.service4 entries i sj = .ok sj := by
          intro sj hsm i
          have hok := hsvcok sj hsm
          rcases sj with _ | _ | _ | _ | _ | ses
          case obj =>
            obtain ⟨_, hni, _, _⟩ := DocNorm.svcOk_elim vms ses hok
            exact DocNorm.service4_self entries i ses hni
          all_goals exact Bool.noConfusion hok
        have h1 : DocNorm.public_key_is_verification_method entries = entries := by
          simp [DocNorm.public_key_is_verification_method, hpget]
        have h2 : DocNorm.authentication_to_refs entries = .ok entries :=
          DocNorm.authentication_to_refs_self entries auths hga hauthok
        have h3 : DocNorm.fully_qualified_ids_and_controllers entries
            = .ok entries :=
          DocNorm.fully_qualified_self entries vms svcs auths hqid hqctl
            hgv hgs hga hv hsq ha
        have h4 : DocNorm.didcomm_services_use_updated_conventions entries
            = .ok entries :=
          DocNorm.conventions_self entries svcs hgs h4s
        have h5 : DocNorm.remove_routing_keys_from_verification_method entries
            = .ok entries :=
          DocNorm.remove_routing_self entries vms svcs hgv hgs hsvcok
        have h6 : DocNorm.didcomm_services_recip_keys_are_refs entries
            = .ok entries :=
          DocNorm.recip_refs_self entries vms svcs hgv hgs hsvcok
        simp only [DocNorm.apply, h1, h2, except_bind_ok, h3, h4, h5]
        exact h6
      all_goals rw [hgv, hgs] at hvs; exact Bool.noConfusion hvs
    all_goals rw [hgv] at hvs; exact Bool.noConfusion hvs
  all_goals rw [hga] at hauth; exact Bool.noConfusion hauth

/-- A concrete normalized DID document for instantiating the C8 identity
theorem. -/
def c8NormalDoc : List (String × Json) :=
  [("id", .str "did:sov:JNK"),
   ("authentication", .arr [.str "did:sov:JNK#1"]),
   ("verificationMethod", .arr [.obj
     [("id", .str "did:sov:JNK#1"),
      ("controller", .str "did:sov:JNK"),
      ("publicKeyBase58", .str "B")]]),
   ("service", .arr [.obj
     [("id", .str "did:sov:JNK;didcomm"),
      ("type", .str "did-communication"),
      ("recipientKeys", .arr [.str "did:sov:JNK#1"]),
      ("routingKeys", .arr [.str "did:key:zABC#zABC"])]])]

theorem c8_normalize_idempotent_witness :
    DocNorm.normalized c8NormalDoc = true
    ∧ DocNorm.apply c8NormalDoc = .ok c8NormalDoc :=
  ⟨by decide, c8_normalize_idempotent c8NormalDoc (by decide)⟩

end ProxyMediator
